import Mathlib

/-!
# go-grpcmw: interceptor chains, levels and registers

A verification development over `grpcmw/server_interceptor.go`,
`grpcmw/server_level.go`, the generated `Register<Service>` of
`protoc-gen-grpc-middleware/template/service.go` and `Parse` of
`protoc-gen-grpc-middleware/descriptor/parse.go`.

Go objects reached through pointers (`*unaryServerInterceptor`,
`*streamServerInterceptor`, `*lowerServerInterceptor`,
`*higherServerInterceptorLevel`) live in a `State`, addressed by natural
numbers; every method that mutates its receiver takes the state and returns
the successor state together with the Go return value.  Locks are not
modelled: every method is executed as one sequential step.  Interceptors and
handlers supplied by the caller are functions of their arguments; they do not
modify the chains while a composed interceptor runs.  The `interceptors` slice
of a chain is held as the list of its elements: two chains never share a
backing array in a `State`, as is the case in Go for chains made by
`NewServerInterceptor` and for chains made from listed arguments.
-/

namespace Grpcmw

/-! ## Types of the gRPC signatures -/

/-- The types that occur in the gRPC handler signatures: `context.Context`,
the request, `*grpc.UnaryServerInfo`, the pair `(interface{}, error)` a unary
handler returns, and for streams the service value, `grpc.ServerStream`,
`*grpc.StreamServerInfo` and the returned `error`. -/
structure Sig where
  Ctx : Type
  Req : Type
  UnaryInfo : Type
  Res : Type
  Srv : Type
  Stream : Type
  StreamInfo : Type
  Err : Type

variable {T : Sig}

/-- The Go type `grpc.UnaryHandler`.  `none` stands for a call that does not
return (the Go call recurses without end). -/
abbrev UnaryHandler (T : Sig) : Type := T.Ctx → T.Req → Option T.Res

/-- The behaviour of a value of Go type `grpc.UnaryServerInterceptor`, as a
function of `(ctx, req, info, handler)`. -/
abbrev UnaryFn (T : Sig) : Type := T.Ctx → T.Req → T.UnaryInfo → UnaryHandler T → Option T.Res

/-- The Go type `grpc.StreamHandler`. -/
abbrev StreamHandler (T : Sig) : Type := T.Srv → T.Stream → T.Err

/-- The Go type `grpc.StreamServerInterceptor`. -/
abbrev GrpcStreamServerInterceptor (T : Sig) : Type :=
  T.Srv → T.Stream → T.StreamInfo → StreamHandler T → T.Err

/-- A value of Go type `grpc.UnaryServerInterceptor`: either a function supplied
by the caller, or the closure returned by `(*unaryServerInterceptor).Interceptor`,
which has a pointer receiver and therefore captures the address `ui` of the chain,
not its contents. -/
inductive GrpcUnaryServerInterceptor (T : Sig) where
  | fn (f : UnaryFn T)
  | closure (ui : Nat)

/-! ## `server_interceptor.go` -/

/-- Go `chainStreamServerInterceptor`. -/
def chainStreamServerInterceptor (current : GrpcStreamServerInterceptor T)
    (info : T.StreamInfo) (next : StreamHandler T) : StreamHandler T :=
  fun srv stream => current srv stream info next

/-- Go `chainUnaryServerInterceptor`. -/
def chainUnaryServerInterceptor (current : UnaryFn T)
    (info : T.UnaryInfo) (next : UnaryHandler T) : UnaryHandler T :=
  fun ctx req => current ctx req info next

/-- The loop `for idx := len(si.interceptors) - 1; idx >= 0; idx--` of the stream
`Interceptor`.  The counter is `idx + 1`, so that `0` ends the loop, and it starts
at `len(si.interceptors)`; `interceptor` is the loop variable.  The index is
always in range, the `none` branch is never taken. -/
def streamInterceptorLoop (interceptors : List (GrpcStreamServerInterceptor T))
    (info : T.StreamInfo) : Nat → StreamHandler T → StreamHandler T
  | 0, interceptor => interceptor
  | idx + 1, interceptor =>
    match interceptors[idx]? with
    | some current =>
      streamInterceptorLoop interceptors info idx
        (chainStreamServerInterceptor current info interceptor)
    | none => streamInterceptorLoop interceptors info idx interceptor

/-- The loop `for idx := len(ui.interceptors) - 1; idx >= 0; idx--` of the unary
`Interceptor`, over the behaviours of the entries; the counter is `idx + 1` as in
`streamInterceptorLoop`. -/
def unaryInterceptorLoop (interceptors : List (UnaryFn T))
    (info : T.UnaryInfo) : Nat → UnaryHandler T → UnaryHandler T
  | 0, interceptor => interceptor
  | idx + 1, interceptor =>
    match interceptors[idx]? with
    | some current =>
      unaryInterceptorLoop interceptors info idx
        (chainUnaryServerInterceptor current info interceptor)
    | none => unaryInterceptorLoop interceptors info idx interceptor

/-- Go `(si streamServerInterceptor) Interceptor()`.  The receiver is a value:
the call copies the struct, so the returned closure works on the slice `si` as
it was when `Interceptor` was called. -/
def streamServerInterceptor.Interceptor (si : List (GrpcStreamServerInterceptor T)) :
    GrpcStreamServerInterceptor T :=
  fun srv ss info handler => streamInterceptorLoop si info si.length handler srv ss

/-- Go `(ui *unaryServerInterceptor) Interceptor()`.  The receiver is a pointer:
the returned closure reads `ui.interceptors` each time it is invoked. -/
def unaryServerInterceptor.Interceptor (ui : Nat) : GrpcUnaryServerInterceptor T :=
  .closure ui

/-- Invocation of a `grpc.UnaryServerInterceptor` value in a heap of unary
chains (`heap ui` is the current `ui.interceptors`).  A caller-supplied function
is applied; the closure of chain `ui` runs the body of `Interceptor` on the
current contents of `ui`, which stay the same for the whole invocation.  `fuel`
bounds the nesting depth of closure invocations; an exhausted budget is `none`. -/
def GrpcUnaryServerInterceptor.invoke (heap : Nat → List (GrpcUnaryServerInterceptor T))
    (fuel : Nat) (g : GrpcUnaryServerInterceptor T) : UnaryFn T :=
  match g with
  | .fn f => f
  | .closure ui =>
    match fuel with
    | 0 => fun _ _ _ _ => none
    | fuel + 1 => fun ctx req info handler =>
      unaryInterceptorLoop ((heap ui).map (invoke heap fuel)) info (heap ui).length handler ctx req

/-! ## `server_level.go`: data -/

/-- A value of the Go interface `ServerInterceptor`: a pointer to one of the two
implementations of the package. -/
inductive ServerInterceptor where
  | lower (l : Nat)
  | higher (l : Nat)
  deriving DecidableEq, Repr

/-- Go `lowerServerInterceptor`; `unaries` and `streams` hold the addresses of
the `*unaryServerInterceptor` and `*streamServerInterceptor` made by
`NewServerInterceptor`. -/
structure lowerServerInterceptor where
  unaries : Nat
  streams : Nat
  index : String
  deriving DecidableEq, Repr

/-- Go `higherServerInterceptorLevel`.  The embedded `ServerInterceptor` is the
address of the `*lowerServerInterceptor` that `NewServerInterceptorRegister`
stores there; `sublevels` is the Go map, `none` for an absent key. -/
structure higherServerInterceptorLevel where
  ServerInterceptor : Nat
  sublevels : String → Option Grpcmw.ServerInterceptor

/-- The heap: the `interceptors` slice of every unary and stream chain, every
level and register, and the next free address of each kind. -/
structure State (T : Sig) where
  unary : Nat → List (GrpcUnaryServerInterceptor T)
  stream : Nat → List (GrpcStreamServerInterceptor T)
  lower : Nat → lowerServerInterceptor
  higher : Nat → higherServerInterceptorLevel
  nextUnary : Nat
  nextStream : Nat
  nextLower : Nat
  nextHigher : Nat

/-- The heap in which nothing has been allocated. -/
def State.empty : State T where
  unary := fun _ => []
  stream := fun _ => []
  lower := fun _ => ⟨0, 0, ""⟩
  higher := fun _ => ⟨0, fun _ => none⟩
  nextUnary := 0
  nextStream := 0
  nextLower := 0
  nextHigher := 0

/-! ## `server_interceptor.go`: constructors and mutators -/

/-- Go `NewStreamServerInterceptor(arr...)`: a new chain whose `interceptors` is
the slice `arr`.  `arr` lists the arguments of the call: for a call with listed
arguments (or none) Go passes a new slice of length and capacity `len(arr)`
whose array no other value refers to, and the list stands for that slice.  Go
stores the slice it is given, so a call that spreads a caller's slice
(`sl...`) makes the chain share the array of `sl`; a `State` holds the
contents of each chain as a list of its own and has no such shared arrays. -/
def NewStreamServerInterceptor (s : State T) (arr : List (GrpcStreamServerInterceptor T)) :
    State T × Nat :=
  ({ s with stream := Function.update s.stream s.nextStream arr
            nextStream := s.nextStream + 1 }, s.nextStream)

/-- Go `NewUnaryServerInterceptor(arr...)`: a new chain whose `interceptors` is
the slice `arr`, a slice of the call's own as for `NewStreamServerInterceptor`. -/
def NewUnaryServerInterceptor (s : State T) (arr : List (GrpcUnaryServerInterceptor T)) :
    State T × Nat :=
  ({ s with unary := Function.update s.unary s.nextUnary arr
            nextUnary := s.nextUnary + 1 }, s.nextUnary)

/-- Go `(si *streamServerInterceptor) AddGRPCInterceptor(arr...)`:
`si.interceptors = append(si.interceptors, arr...)`, returns `si`. -/
def streamServerInterceptor.AddGRPCInterceptor (s : State T) (si : Nat)
    (arr : List (GrpcStreamServerInterceptor T)) : State T × Nat :=
  ({ s with stream := Function.update s.stream si (s.stream si ++ arr) }, si)

/-- Go `(si *streamServerInterceptor) AddInterceptor(arr...)`: for each `i` of
`arr` in order, `si.interceptors = append(si.interceptors, i.Interceptor())`.
`i.Interceptor()` has a value receiver, so it is taken on the contents of `i`
at that moment.  Returns `si`. -/
def streamServerInterceptor.AddInterceptor (s : State T) (si : Nat) (arr : List Nat) :
    State T × Nat :=
  (arr.foldl (fun st i =>
      { st with stream := Function.update st.stream si
                  (st.stream si ++ [streamServerInterceptor.Interceptor (st.stream i)]) }) s, si)

/-- Go `(ui *unaryServerInterceptor) AddGRPCInterceptor(arr...)`:
`ui.interceptors = append(ui.interceptors, arr...)`, returns `ui`. -/
def unaryServerInterceptor.AddGRPCInterceptor (s : State T) (ui : Nat)
    (arr : List (GrpcUnaryServerInterceptor T)) : State T × Nat :=
  ({ s with unary := Function.update s.unary ui (s.unary ui ++ arr) }, ui)

/-- Go `(ui *unaryServerInterceptor) AddInterceptor(arr...)`: for each `i` of
`arr` in order, `ui.interceptors = append(ui.interceptors, i.Interceptor())`.
Returns `ui`. -/
def unaryServerInterceptor.AddInterceptor (s : State T) (ui : Nat) (arr : List Nat) :
    State T × Nat :=
  (arr.foldl (fun st i =>
      { st with unary := Function.update st.unary ui
                  (st.unary ui ++ [unaryServerInterceptor.Interceptor i]) }) s, ui)

/-- Invocation, in state `s`, of the closure returned by `ui.Interceptor()`. -/
def State.invokeUnary (s : State T) (fuel : Nat) (g : GrpcUnaryServerInterceptor T) : UnaryFn T :=
  g.invoke s.unary fuel

/-! ## `server_level.go`: levels -/

/-- Go `NewServerInterceptor(index)`: a new level with two new empty chains. -/
def NewServerInterceptor (s : State T) (index : String) : State T × ServerInterceptor :=
  let (s1, u) := NewUnaryServerInterceptor s []
  let (s2, st) := NewStreamServerInterceptor s1 []
  ({ s2 with lower := Function.update s2.lower s2.nextLower ⟨u, st, index⟩
             nextLower := s2.nextLower + 1 }, .lower s2.nextLower)

/-- Go `(l lowerServerInterceptor) Index()`. -/
def lowerServerInterceptor.Index (s : State T) (l : Nat) : String :=
  (s.lower l).index

/-- Go `(l *lowerServerInterceptor) AddGRPCUnaryInterceptor(arr...)`; returns `l`. -/
def lowerServerInterceptor.AddGRPCUnaryInterceptor (s : State T) (l : Nat)
    (arr : List (GrpcUnaryServerInterceptor T)) : State T × ServerInterceptor :=
  ((unaryServerInterceptor.AddGRPCInterceptor s (s.lower l).unaries arr).1, .lower l)

/-- Go `(l *lowerServerInterceptor) AddUnaryInterceptor(arr...)`; returns `l`. -/
def lowerServerInterceptor.AddUnaryInterceptor (s : State T) (l : Nat) (arr : List Nat) :
    State T × ServerInterceptor :=
  ((unaryServerInterceptor.AddInterceptor s (s.lower l).unaries arr).1, .lower l)

/-- Go `(l *lowerServerInterceptor) UnaryServerInterceptor()`. -/
def lowerServerInterceptor.UnaryServerInterceptor (s : State T) (l : Nat) : Nat :=
  (s.lower l).unaries

/-- Go `(l *lowerServerInterceptor) AddGRPCStreamInterceptor(arr...)`; returns `l`. -/
def lowerServerInterceptor.AddGRPCStreamInterceptor (s : State T) (l : Nat)
    (arr : List (GrpcStreamServerInterceptor T)) : State T × ServerInterceptor :=
  ((streamServerInterceptor.AddGRPCInterceptor s (s.lower l).streams arr).1, .lower l)

/-- Go `(l *lowerServerInterceptor) AddStreamInterceptor(arr...)`; returns `l`. -/
def lowerServerInterceptor.AddStreamInterceptor (s : State T) (l : Nat) (arr : List Nat) :
    State T × ServerInterceptor :=
  ((streamServerInterceptor.AddInterceptor s (s.lower l).streams arr).1, .lower l)

/-- Go `(l *lowerServerInterceptor) StreamServerInterceptor()`. -/
def lowerServerInterceptor.StreamServerInterceptor (s : State T) (l : Nat) : Nat :=
  (s.lower l).streams

/-- The `*lowerServerInterceptor` that executes a `ServerInterceptor` method
called on `x`: `x` itself, or for a register the embedded interface value, whose
methods Go promotes. -/
def ServerInterceptor.receiver (s : State T) : ServerInterceptor → Nat
  | .lower l => l
  | .higher h => (s.higher h).ServerInterceptor

/-- Interface call `x.Index()`. -/
def ServerInterceptor.Index (s : State T) (x : ServerInterceptor) : String :=
  lowerServerInterceptor.Index s (x.receiver s)

/-- Interface call `x.UnaryServerInterceptor()`. -/
def ServerInterceptor.UnaryServerInterceptor (s : State T) (x : ServerInterceptor) : Nat :=
  lowerServerInterceptor.UnaryServerInterceptor s (x.receiver s)

/-- Interface call `x.StreamServerInterceptor()`. -/
def ServerInterceptor.StreamServerInterceptor (s : State T) (x : ServerInterceptor) : Nat :=
  lowerServerInterceptor.StreamServerInterceptor s (x.receiver s)

/-- Interface call `x.AddGRPCUnaryInterceptor(arr...)`. -/
def ServerInterceptor.AddGRPCUnaryInterceptor (s : State T) (x : ServerInterceptor)
    (arr : List (GrpcUnaryServerInterceptor T)) : State T × ServerInterceptor :=
  lowerServerInterceptor.AddGRPCUnaryInterceptor s (x.receiver s) arr

/-- Interface call `x.AddUnaryInterceptor(arr...)`. -/
def ServerInterceptor.AddUnaryInterceptor (s : State T) (x : ServerInterceptor)
    (arr : List Nat) : State T × ServerInterceptor :=
  lowerServerInterceptor.AddUnaryInterceptor s (x.receiver s) arr

/-- Interface call `x.AddGRPCStreamInterceptor(arr...)`. -/
def ServerInterceptor.AddGRPCStreamInterceptor (s : State T) (x : ServerInterceptor)
    (arr : List (GrpcStreamServerInterceptor T)) : State T × ServerInterceptor :=
  lowerServerInterceptor.AddGRPCStreamInterceptor s (x.receiver s) arr

/-- Interface call `x.AddStreamInterceptor(arr...)`. -/
def ServerInterceptor.AddStreamInterceptor (s : State T) (x : ServerInterceptor)
    (arr : List Nat) : State T × ServerInterceptor :=
  lowerServerInterceptor.AddStreamInterceptor s (x.receiver s) arr

/-- Go `(l *lowerServerInterceptor) Merge(interceptors...)`: for each argument in
order, `l.AddUnaryInterceptor(interceptor.UnaryServerInterceptor())` and, on the
value that call returns, `AddStreamInterceptor(interceptor.StreamServerInterceptor())`.
Returns `l`. -/
def lowerServerInterceptor.Merge (s : State T) (l : Nat) (interceptors : List ServerInterceptor) :
    State T × ServerInterceptor :=
  (interceptors.foldl (fun st interceptor =>
      let r := lowerServerInterceptor.AddUnaryInterceptor st l
        [interceptor.UnaryServerInterceptor st]
      (r.2.AddStreamInterceptor r.1 [interceptor.StreamServerInterceptor r.1]).1) s, .lower l)

/-- Interface call `x.Merge(interceptors...)`. -/
def ServerInterceptor.Merge (s : State T) (x : ServerInterceptor)
    (interceptors : List ServerInterceptor) : State T × ServerInterceptor :=
  lowerServerInterceptor.Merge s (x.receiver s) interceptors

/-! ## `server_level.go`: registers -/

/-- Go `NewServerInterceptorRegister(index)`: a register around a new level, with
an empty map.  The result is the address of the new `higherServerInterceptorLevel`;
as a `ServerInterceptor` value it is `.higher` of that address. -/
def NewServerInterceptorRegister (s : State T) (index : String) : State T × Nat :=
  let r := NewServerInterceptor s index
  ({ r.1 with higher := Function.update r.1.higher r.1.nextHigher
                ⟨r.2.receiver r.1, fun _ => none⟩
              nextHigher := r.1.nextHigher + 1 }, r.1.nextHigher)

/-- Go `(l higherServerInterceptorLevel) Get(key)`: `l.sublevels[key]` with the
comma-ok flag; a read of the state, `(nil, false)` is `(none, false)`. -/
def higherServerInterceptorLevel.Get (s : State T) (l : Nat) (key : String) :
    Option Grpcmw.ServerInterceptor × Bool :=
  ((s.higher l).sublevels key, ((s.higher l).sublevels key).isSome)

/-- Go `(l *higherServerInterceptorLevel) Register(level)`:
`l.sublevels[level.Index()] = level`. -/
def higherServerInterceptorLevel.Register (s : State T) (l : Nat)
    (level : Grpcmw.ServerInterceptor) : State T :=
  { s with higher := (Function.update s.higher l
      ⟨(s.higher l).ServerInterceptor,
        Function.update (s.higher l).sublevels (level.Index s) (some level)⟩) }

/-! ## The composition the specification describes -/

/-- The specification's composition of a unary chain `[i0, ..., i(n-1)]` with a
terminal handler `h`: `i0` runs with `next = n1`, where
`nk = fun (c, r) => ik(c, r, info, n(k+1))` and the last `next` is `h`. -/
def unaryNested : List (UnaryFn T) → T.UnaryInfo → UnaryHandler T → UnaryHandler T
  | [], _, h => h
  | i :: rest, info, h => fun c r => i c r info (unaryNested rest info h)

/-- The specification's composition of a stream chain, as `unaryNested`. -/
def streamNested :
    List (GrpcStreamServerInterceptor T) → T.StreamInfo → StreamHandler T → StreamHandler T
  | [], _, h => h
  | i :: rest, info, h => fun srv ss => i srv ss info (streamNested rest info h)

/-! ## A concrete signature with an append-only log -/

/-- A signature for examples: the context carries the log of the effects
performed so far, a request is its `authorized` flag, a unary result is the log
at return time with the response or the error, a stream result is the log. -/
abbrev LogSig : Sig where
  Ctx := List String
  Req := Bool
  UnaryInfo := Unit
  Res := List String × Except String String
  Srv := List String
  Stream := Unit
  StreamInfo := Unit
  Err := List String

/-- A unary interceptor that records `name` and calls its `next` once, returning
what `next` returns. -/
def recordUnary (name : String) : UnaryFn LogSig :=
  fun (ctx : List String) req _ next => next (ctx ++ [name]) req

/-- A stream interceptor that records `name` and calls its `next` once. -/
def recordStream (name : String) : GrpcStreamServerInterceptor LogSig :=
  fun (srv : List String) ss _ next => next (srv ++ [name]) ss

/-- The interceptor `logRequest` of the scenario. -/
def logRequest : UnaryFn LogSig := recordUnary "logRequest"

/-- The interceptor `denyIfUnauthorized` of the scenario: an unauthorized
request is answered with the error, without calling `next`. -/
def denyIfUnauthorized : UnaryFn LogSig :=
  fun ctx (req : Bool) _ next => if req = true then next ctx req else some (ctx, .error "denied")

/-- The interceptor `addTimingHeader` of the scenario. -/
def addTimingHeader : UnaryFn LogSig := recordUnary "addTimingHeader"

/-- The terminal handler of the scenario: records itself and returns `"ok"`. -/
def okHandler : UnaryHandler LogSig :=
  fun (ctx : List String) _ => some (ctx ++ ["terminal"], .ok "ok")

/-- The state holding the scenario's chain at address `0`. -/
def scenarioState : State LogSig :=
  (NewUnaryServerInterceptor State.empty
    [.fn logRequest, .fn denyIfUnauthorized, .fn addTimingHeader]).1

/-- An interceptor that answers every request with the error, never calling
`next`. -/
def denyAlways : UnaryFn LogSig :=
  fun ctx _ _ _ => some (ctx, .error "denied")

/-- A state with the chain `[logRequest, denyAlways, addTimingHeader]` at address
`0` and the chain `[logRequest, denyAlways]` at address `1`. -/
def shortCircuitState : State LogSig :=
  (NewUnaryServerInterceptor
    (NewUnaryServerInterceptor State.empty
      [.fn logRequest, .fn denyAlways, .fn addTimingHeader]).1
    [.fn logRequest, .fn denyAlways]).1

/-- A state with the unary chain `[x]` at address `0` and the unary chain
`[a, b]` at address `1`, of recording interceptors. -/
def adoptState : State LogSig :=
  (NewUnaryServerInterceptor
    (NewUnaryServerInterceptor State.empty [.fn (recordUnary "x")]).1
    [.fn (recordUnary "a"), .fn (recordUnary "b")]).1

/-- A state with one empty stream chain, at address `0`. -/
def emptyStreamState : State LogSig :=
  (NewStreamServerInterceptor State.empty []).1

/-- A stream handler that returns the log it receives. -/
def logHandler : StreamHandler LogSig :=
  fun srv _ => srv

/-! ## Sequences of calls -/

/-- A call of one of the package's constructors or mutating methods. -/
inductive Op (T : Sig) where
  | newStream (arr : List (GrpcStreamServerInterceptor T))
  | newUnary (arr : List (GrpcUnaryServerInterceptor T))
  | streamAddGRPC (si : Nat) (arr : List (GrpcStreamServerInterceptor T))
  | streamAdd (si : Nat) (arr : List Nat)
  | unaryAddGRPC (ui : Nat) (arr : List (GrpcUnaryServerInterceptor T))
  | unaryAdd (ui : Nat) (arr : List Nat)
  | newLevel (index : String)
  | addGRPCUnary (x : ServerInterceptor) (arr : List (GrpcUnaryServerInterceptor T))
  | addUnary (x : ServerInterceptor) (arr : List Nat)
  | addGRPCStream (x : ServerInterceptor) (arr : List (GrpcStreamServerInterceptor T))
  | addStream (x : ServerInterceptor) (arr : List Nat)
  | merge (x : ServerInterceptor) (interceptors : List ServerInterceptor)
  | newRegister (index : String)
  | register (r : Nat) (level : ServerInterceptor)

/-- The state after the call `op` made in state `s`. -/
def Op.run (s : State T) : Op T → State T
  | .newStream arr => (NewStreamServerInterceptor s arr).1
  | .newUnary arr => (NewUnaryServerInterceptor s arr).1
  | .streamAddGRPC si arr => (streamServerInterceptor.AddGRPCInterceptor s si arr).1
  | .streamAdd si arr => (streamServerInterceptor.AddInterceptor s si arr).1
  | .unaryAddGRPC ui arr => (unaryServerInterceptor.AddGRPCInterceptor s ui arr).1
  | .unaryAdd ui arr => (unaryServerInterceptor.AddInterceptor s ui arr).1
  | .newLevel index => (NewServerInterceptor s index).1
  | .addGRPCUnary x arr => (x.AddGRPCUnaryInterceptor s arr).1
  | .addUnary x arr => (x.AddUnaryInterceptor s arr).1
  | .addGRPCStream x arr => (x.AddGRPCStreamInterceptor s arr).1
  | .addStream x arr => (x.AddStreamInterceptor s arr).1
  | .merge x interceptors => (x.Merge s interceptors).1
  | .newRegister index => (NewServerInterceptorRegister s index).1
  | .register r level => higherServerInterceptorLevel.Register s r level

/-- The state after the calls `ops`, made in order from state `s`. -/
def runOps (s : State T) (ops : List (Op T)) : State T :=
  ops.foldl Op.run s

/-- The keys `level.Index()` of the calls `r.Register(level)` among `ops`, each
index read in the state in which its call is made. -/
def registeredKeys (r : Nat) : State T → List (Op T) → List String
  | _, [] => []
  | s, op :: ops =>
    match op with
    | .register r' level =>
      if r' = r then level.Index s :: registeredKeys r (op.run s) ops
      else registeredKeys r (op.run s) ops
    | _ => registeredKeys r (op.run s) ops

/-- Every binding of register `r` is under the index of the bound level. -/
def keysAreIndexes (s : State T) (r : Nat) : Prop :=
  ∀ (k : String) (x : ServerInterceptor), (s.higher r).sublevels k = some x → x.Index s = k

/-- A state with a register `reg` at address `0` and two levels of index `svc`,
at addresses `1` and `2` (address `0` is the level embedded in the register). -/
def overwriteState : State LogSig :=
  (NewServerInterceptor
    (NewServerInterceptor (NewServerInterceptorRegister State.empty "reg").1 "svc").1 "svc").1

/-- A state with three levels, at addresses `0`, `1` and `2`, whose unary chains
hold the recording interceptors `[x]`, `[a]` and `[b]` and whose stream chains
hold `[sx]`, `[sa]` and `[sb]`. -/
def mergeState : State LogSig :=
  let s0 := (NewServerInterceptor State.empty "A").1
  let s1 := (NewServerInterceptor s0 "L1").1
  let s2 := (NewServerInterceptor s1 "L2").1
  let s3 := ((ServerInterceptor.lower 0).AddGRPCUnaryInterceptor s2 [.fn (recordUnary "x")]).1
  let s4 := ((ServerInterceptor.lower 1).AddGRPCUnaryInterceptor s3 [.fn (recordUnary "a")]).1
  let s5 := ((ServerInterceptor.lower 2).AddGRPCUnaryInterceptor s4 [.fn (recordUnary "b")]).1
  let s6 := ((ServerInterceptor.lower 0).AddGRPCStreamInterceptor s5 [recordStream "sx"]).1
  let s7 := ((ServerInterceptor.lower 1).AddGRPCStreamInterceptor s6 [recordStream "sa"]).1
  ((ServerInterceptor.lower 2).AddGRPCStreamInterceptor s7 [recordStream "sb"]).1

/-- A unary interceptor that cannot return unless its `next` returns: when
`next` returns for no argument, neither does the interceptor.  Every interceptor
that calls `next` once and waits for its result is of this kind. -/
def waitsForNext (f : UnaryFn T) : Prop :=
  ∀ ctx req info next, (∀ c r, next c r = none) → f ctx req info next = none

/-- A state with one level, at address `0`, whose unary chain holds the recording
interceptor `[a1]` and whose stream chain holds `[s1]`. -/
def selfMergeState : State LogSig :=
  let s0 := (NewServerInterceptor State.empty "L").1
  let s1 := ((ServerInterceptor.lower 0).AddGRPCUnaryInterceptor s0 [.fn (recordUnary "a1")]).1
  ((ServerInterceptor.lower 0).AddGRPCStreamInterceptor s1 [recordStream "s1"]).1

/-- A unary interceptor that returns its `next`'s result unchanged: it calls
`next` on a context and a request of its choosing and returns what `next`
returns. -/
def returnsNextResult (f : UnaryFn T) : Prop :=
  ∃ (pc : T.Ctx → T.Req → T.UnaryInfo → T.Ctx) (pr : T.Ctx → T.Req → T.UnaryInfo → T.Req),
    ∀ ctx req info next, f ctx req info next = next (pc ctx req info) (pr ctx req info)

/-- A stream interceptor that returns its `next`'s result unchanged. -/
def streamReturnsNextResult (f : GrpcStreamServerInterceptor T) : Prop :=
  ∃ (pv : T.Srv → T.Stream → T.StreamInfo → T.Srv)
    (pt : T.Srv → T.Stream → T.StreamInfo → T.Stream),
    ∀ srv ss info next, f srv ss info next = next (pv srv ss info) (pt srv ss info)

/-- The Go type assertion `x.(ServerInterceptorRegister)`: the address of the
register when `x` is a `*higherServerInterceptorLevel`, `none` when `x` is a
`*lowerServerInterceptor`, which has no `Get` and no `Register`. -/
def ServerInterceptor.asRegister : ServerInterceptor → Option Nat
  | .lower _ => none
  | .higher h => some h

/-- In state `s`, `y` has the index and the two chains of `x`. -/
def sameLevel (s : State T) (x y : ServerInterceptor) : Prop :=
  y.Index s = x.Index s ∧
  y.UnaryServerInterceptor s = x.UnaryServerInterceptor s ∧
  y.StreamServerInterceptor s = x.StreamServerInterceptor s

/-- The value `x` points to objects that have been allocated in `s`. -/
def ServerInterceptor.allocated (s : State T) : ServerInterceptor → Prop
  | .lower l => l < s.nextLower
  | .higher h => h < s.nextHigher ∧ (s.higher h).ServerInterceptor < s.nextLower

/-! ## `template/service.go`: the generated `Register<Service>` -/

/-- The data a method contributes to the template `serviceCode`: `.Method`,
`.Stream`, and `.Interceptors.Indexes` when `.Interceptors` is set. -/
structure MethodTemplate where
  Method : String
  Stream : Bool
  Interceptors : Option (List String)

/-- The data the template `serviceCode` is executed on: `.Service`,
`.Interceptors.Indexes` when `.Interceptors` is set, and `.Methods`. -/
structure ServiceTemplate where
  Service : String
  Interceptors : Option (List String)
  Methods : List MethodTemplate

/-- The miss branch of the generated `Register<Service>` up to the `Merge`:
`ret.ServerInterceptor = NewServerInterceptorRegister(Service)`, then
`Register(ret.ServerInterceptor)` on the package register `pkg`, then, when the
service has interceptors, `ret.ServerInterceptor.Merge(...)` of the values
`registry.GetServerInterceptor(index)`.  `GetServerInterceptor` stands for that
lookup, whose package is not among the sources.  Returns the address of `ret`'s
register. -/
def createService (GetServerInterceptor : String → ServerInterceptor) (s : State T) (pkg : Nat)
    (tpl : ServiceTemplate) : State T × Nat :=
  let r := NewServerInterceptorRegister s tpl.Service
  let s2 := higherServerInterceptorLevel.Register r.1 pkg (.higher r.2)
  match tpl.Interceptors with
  | some indexes => (((ServerInterceptor.higher r.2).Merge s2 (indexes.map GetServerInterceptor)).1, r.2)
  | none => (s2, r.2)

/-- The statements `ret.<Method>().AddInterceptor(...)` of the miss branch, one
for each method that has interceptors, in order.  `method st ret m` stands for
the generated accessor `ret.<Method>()`, whose template is not among the
sources: it yields the state after the call and the address of the unary or
stream chain it returns. -/
def wireMethods (GetServerInterceptor : String → ServerInterceptor)
    (method : State T → Nat → MethodTemplate → State T × Nat) (s : State T) (ret : Nat)
    (methods : List MethodTemplate) : State T :=
  methods.foldl (fun st m =>
    match m.Interceptors with
    | some indexes =>
      let c := method st ret m
      if m.Stream = true then
        (streamServerInterceptor.AddInterceptor c.1 c.2
          (indexes.map (fun i => (GetServerInterceptor i).StreamServerInterceptor c.1))).1
      else
        (unaryServerInterceptor.AddInterceptor c.1 c.2
          (indexes.map (fun i => (GetServerInterceptor i).UnaryServerInterceptor c.1))).1
    | none => st) s

/-- The generated `Register<Service>()` of `serviceCode`, called on a wrapper
whose `ServerInterceptor` field is `i`; the result is the `ServerInterceptor`
field of the returned wrapper (`none` for a nil interface value).  The outer
`none` is the panic of the type assertion
`i.ServerInterceptor.(grpcmw.ServerInterceptorRegister)`. -/
def RegisterService (GetServerInterceptor : String → ServerInterceptor)
    (method : State T → Nat → MethodTemplate → State T × Nat) (tpl : ServiceTemplate)
    (s : State T) (i : ServerInterceptor) : Option (State T × Option ServerInterceptor) :=
  match i.asRegister with
  | none => none
  | some pkg =>
    let got := higherServerInterceptorLevel.Get s pkg tpl.Service
    if got.2 = false then
      let c := createService GetServerInterceptor s pkg tpl
      some (wireMethods GetServerInterceptor method c.1 c.2 tpl.Methods, some (.higher c.2))
    else some (s, got.1)

/-- The state after `n` calls of `Register<Service>()` in a row on the same
package wrapper, with the value the last call returned. -/
def RegisterServiceCalls (GetServerInterceptor : String → ServerInterceptor)
    (method : State T → Nat → MethodTemplate → State T × Nat) (tpl : ServiceTemplate)
    (i : ServerInterceptor) : Nat → State T → Option (State T × Option ServerInterceptor)
  | 0, s => some (s, none)
  | n + 1, s =>
    match RegisterServiceCalls GetServerInterceptor method tpl i n s with
    | some (s', _) => RegisterService GetServerInterceptor method tpl s' i
    | none => none

/-- Modelled from the spec: the generated method accessor `ret.<Method>()`, whose
template is not among the sources, as the lookup-or-create of section 4.3 on the
service register `ret`: `Get(Method)`; on a miss a `NewServerInterceptor(Method)`
is made and registered in `ret`; the unary or stream chain of the level is
returned. -/
def lookupOrCreateMethod (s : State T) (ret : Nat) (m : MethodTemplate) : State T × Nat :=
  match higherServerInterceptorLevel.Get s ret m.Method with
  | (some level, true) =>
    (s, if m.Stream = true then level.StreamServerInterceptor s else level.UnaryServerInterceptor s)
  | _ =>
    let r := NewServerInterceptor s m.Method
    let s2 := higherServerInterceptorLevel.Register r.1 ret r.2
    (s2, if m.Stream = true then r.2.StreamServerInterceptor s2 else r.2.UnaryServerInterceptor s2)

/-- A state with the package register `pkg` at address `0` and a level `auth`,
at address `1`, whose unary chain holds the recording interceptor `auth`. -/
def packageState : State LogSig :=
  let s0 := (NewServerInterceptorRegister State.empty "pkg").1
  let s1 := (NewServerInterceptor s0 "auth").1
  ((ServerInterceptor.lower 1).AddGRPCUnaryInterceptor s1 [.fn (recordUnary "auth")]).1

/-- A service `Svc` with the scope interceptor `auth` and one unary method
`Ping` with the interceptor `auth`. -/
def svcTemplate : ServiceTemplate where
  Service := "Svc"
  Interceptors := some ["auth"]
  Methods := [⟨"Ping", false, some ["auth"]⟩]

/-! ## `descriptor/parse.go` -/

/-- The loop of Go `Parse` over the remaining proto files, `pkgs` being the map
built so far (`none` for an absent key).  `GetFile` is the function of that
name, which is not among the sources, with its two results `(parsed, err)`;
`GetPackage` is the accessor `file.GetPackage()`.  The result is the pair
`(pkgs, err)` that `Parse` returns, `none` for `nil`. -/
def Parse.loop {Desc File Err : Type} (GetFile : Desc → Option File × Option Err)
    (GetPackage : Desc → String) :
    (String → Option (List File)) → List Desc → Option (String → Option (List File)) × Option Err
  | pkgs, [] => (some pkgs, none)
  | pkgs, file :: rest =>
    match GetFile file with
    | (_, some err) => (none, some err)
    | (some parsed, none) =>
      Parse.loop GetFile GetPackage
        (Function.update pkgs (GetPackage file)
          (some ((pkgs (GetPackage file)).getD [] ++ [parsed]))) rest
    | (none, none) => Parse.loop GetFile GetPackage pkgs rest

/-- Go `Parse`, on the list `pb.GetProtoFile()`: the loop started on the empty
map. -/
def Parse {Desc File Err : Type} (GetFile : Desc → Option File × Option Err)
    (GetPackage : Desc → String) (protoFile : List Desc) :
    Option (String → Option (List File)) × Option Err :=
  Parse.loop GetFile GetPackage (fun _ => none) protoFile

/-- The non-nil results `GetFile(f)` of the files of package `pkg`, in request
order. -/
def packageFiles {Desc File Err : Type} (GetFile : Desc → Option File × Option Err)
    (GetPackage : Desc → String) (protoFile : List Desc) (pkg : String) : List File :=
  (protoFile.filter (fun f => GetPackage f = pkg)).filterMap (fun f => (GetFile f).1)

/-- The map with a key for each package whose list `content` is not empty. -/
def mapOfLists {File : Type} (content : String → List File) : String → Option (List File) :=
  fun pkg =>
    match content pkg with
    | [] => none
    | x :: rest => some (x :: rest)

/-- The map the specification describes for a request whose files all parse:
each package with a non-nil result is a key, bound to `packageFiles`. -/
def groupByPackage {Desc File Err : Type} (GetFile : Desc → Option File × Option Err)
    (GetPackage : Desc → String) (protoFile : List Desc) : String → Option (List File) :=
  mapOfLists (packageFiles GetFile GetPackage protoFile)

/-- An example `GetFile` on file names: `bad` fails, `skip` yields nil, every
other name parses to itself. -/
def exampleGetFile (name : String × String) : Option String × Option String :=
  if name.2 = "bad" then (none, some "cannot parse bad")
  else if name.2 = "skip" then (none, none)
  else (some name.2, none)

theorem unaryNested_append (xs ys : List (UnaryFn T)) (info : T.UnaryInfo) (h : UnaryHandler T) :
    unaryNested (xs ++ ys) info h = unaryNested xs info (unaryNested ys info h) := by
  induction xs with
  | nil => rfl
  | cons i rest ih =>
    show (fun c r => i c r info (unaryNested (rest ++ ys) info h)) = _
    rw [ih]
    rfl

theorem streamNested_append (xs ys : List (GrpcStreamServerInterceptor T)) (info : T.StreamInfo)
    (h : StreamHandler T) :
    streamNested (xs ++ ys) info h = streamNested xs info (streamNested ys info h) := by
  induction xs with
  | nil => rfl
  | cons i rest ih =>
    show (fun srv ss => i srv ss info (streamNested (rest ++ ys) info h)) = _
    rw [ih]
    rfl

theorem unaryInterceptorLoop_append (info : T.UnaryInfo) (xs ys : List (UnaryFn T))
    (acc : UnaryHandler T) :
    unaryInterceptorLoop (xs ++ ys) info xs.length acc = unaryNested xs info acc := by
  induction xs using List.reverseRecOn generalizing ys acc with
  | nil => rfl
  | append_singleton xs x ih =>
    have hget : (xs ++ [x] ++ ys)[xs.length]? = some x := by
      rw [List.append_assoc, List.getElem?_append_right (Nat.le_refl _)]
      simp
    rw [List.length_append, List.length_singleton, unaryInterceptorLoop, hget]
    simp only []
    rw [List.append_assoc, ih, unaryNested_append]
    rfl

theorem streamInterceptorLoop_append (info : T.StreamInfo)
    (xs ys : List (GrpcStreamServerInterceptor T)) (acc : StreamHandler T) :
    streamInterceptorLoop (xs ++ ys) info xs.length acc = streamNested xs info acc := by
  induction xs using List.reverseRecOn generalizing ys acc with
  | nil => rfl
  | append_singleton xs x ih =>
    have hget : (xs ++ [x] ++ ys)[xs.length]? = some x := by
      rw [List.append_assoc, List.getElem?_append_right (Nat.le_refl _)]
      simp
    rw [List.length_append, List.length_singleton, streamInterceptorLoop, hget]
    simp only []
    rw [List.append_assoc, ih, streamNested_append]
    rfl

theorem unaryInterceptorLoop_eq (xs : List (UnaryFn T)) (info : T.UnaryInfo)
    (h : UnaryHandler T) : unaryInterceptorLoop xs info xs.length h = unaryNested xs info h := by
  simpa using unaryInterceptorLoop_append info xs [] h

theorem streamInterceptorLoop_eq (xs : List (GrpcStreamServerInterceptor T)) (info : T.StreamInfo)
    (h : StreamHandler T) : streamInterceptorLoop xs info xs.length h = streamNested xs info h := by
  simpa using streamInterceptorLoop_append info xs [] h

theorem invoke_closure (heap : Nat → List (GrpcUnaryServerInterceptor T)) (fuel ui : Nat)
    (ctx : T.Ctx) (req : T.Req) (info : T.UnaryInfo) (h : UnaryHandler T) :
    GrpcUnaryServerInterceptor.invoke heap (fuel + 1) (.closure ui) ctx req info h
      = unaryNested ((heap ui).map (GrpcUnaryServerInterceptor.invoke heap fuel)) info h ctx req := by
  have := unaryInterceptorLoop_eq ((heap ui).map (GrpcUnaryServerInterceptor.invoke heap fuel)) info h
  rw [List.length_map] at this
  show unaryInterceptorLoop _ info _ h ctx req = _
  rw [this]

theorem invoke_fn (heap : Nat → List (GrpcUnaryServerInterceptor T)) (fuel : Nat) (f : UnaryFn T) :
    GrpcUnaryServerInterceptor.invoke heap fuel (.fn f) = f := by
  cases fuel <;> rfl

theorem map_invoke_fn (heap : Nat → List (GrpcUnaryServerInterceptor T)) (fuel : Nat)
    (fs : List (UnaryFn T)) :
    (fs.map GrpcUnaryServerInterceptor.fn).map (GrpcUnaryServerInterceptor.invoke heap fuel) = fs := by
  induction fs with
  | nil => rfl
  | cons f rest ih => simp only [List.map_cons, invoke_fn, ih]

theorem invoke_closure_fns (heap : Nat → List (GrpcUnaryServerInterceptor T)) (fuel ui : Nat)
    (fs : List (UnaryFn T)) (hs : heap ui = fs.map GrpcUnaryServerInterceptor.fn)
    (ctx : T.Ctx) (req : T.Req) (info : T.UnaryInfo) (h : UnaryHandler T) :
    GrpcUnaryServerInterceptor.invoke heap (fuel + 1) (.closure ui) ctx req info h
      = unaryNested fs info h ctx req := by
  rw [invoke_closure, hs, map_invoke_fn]

theorem unaryNested_record (names : List String) (info : Unit) (h : UnaryHandler LogSig)
    (ctx : List String) (req : Bool) :
    unaryNested (names.map recordUnary) info h ctx req = h (ctx ++ names) req := by
  induction names generalizing ctx with
  | nil => simp [unaryNested]
  | cons n rest ih =>
    show recordUnary n ctx req info (unaryNested (rest.map recordUnary) info h) = _
    show unaryNested (rest.map recordUnary) info h (ctx ++ [n]) req = _
    rw [ih]
    simp

theorem streamNested_record (names : List String) (info : Unit) (h : StreamHandler LogSig)
    (srv : List String) (ss : Unit) :
    streamNested (names.map recordStream) info h srv ss = h (srv ++ names) ss := by
  induction names generalizing srv with
  | nil => simp [streamNested]
  | cons n rest ih =>
    show recordStream n srv ss info (streamNested (rest.map recordStream) info h) = _
    show streamNested (rest.map recordStream) info h (srv ++ [n]) ss = _
    rw [ih]
    simp

theorem unaryNested_short (pre post post' : List (UnaryFn T)) (e : UnaryFn T) (info : T.UnaryInfo)
    (he : ∀ ctx req n n', e ctx req info n = e ctx req info n') (h h' : UnaryHandler T) :
    unaryNested (pre ++ e :: post) info h = unaryNested (pre ++ e :: post') info h' := by
  induction pre with
  | nil =>
    funext ctx req
    exact he ctx req _ _
  | cons i rest ih =>
    show (fun c r => i c r info (unaryNested (rest ++ e :: post) info h)) = _
    rw [ih]
    rfl

theorem streamNested_short (pre post post' : List (GrpcStreamServerInterceptor T))
    (e : GrpcStreamServerInterceptor T) (info : T.StreamInfo)
    (he : ∀ srv ss n n', e srv ss info n = e srv ss info n') (h h' : StreamHandler T) :
    streamNested (pre ++ e :: post) info h = streamNested (pre ++ e :: post') info h' := by
  induction pre with
  | nil =>
    funext srv ss
    exact he srv ss _ _
  | cons i rest ih =>
    show (fun srv ss => i srv ss info (streamNested (rest ++ e :: post) info h)) = _
    rw [ih]
    rfl

theorem stream_Interceptor_eq (si : List (GrpcStreamServerInterceptor T)) (srv : T.Srv)
    (ss : T.Stream) (info : T.StreamInfo) (h : StreamHandler T) :
    streamServerInterceptor.Interceptor si srv ss info h = streamNested si info h srv ss := by
  show streamInterceptorLoop si info si.length h srv ss = _
  rw [streamInterceptorLoop_eq]

/-! ## Composition -/

/-- C1: the interceptor returned by `Interceptor()` is the right fold of the
chain.  Invoked with `(ctx, req, info, h)`, the composed unary interceptor of
chain `ui` equals `i0(ctx, req, info, n1)` with `nk = fun (c, r) => ik(c, r, info, n(k+1))`
and the last `next` equal to `h`, over the behaviours of the entries `ui` holds
when it is invoked; for a chain of caller-supplied functions `fs` this is the
nested application of `fs` itself, with any fuel; the composed stream
interceptor of the slice `si` is the same nesting; and a chain whose members
each record their name and call `next` once hands `h` the log of the names in
the order they were added. -/
theorem interceptor_is_right_fold :
    (∀ (T : Sig) (s : State T) (ui fuel : Nat) (ctx : T.Ctx) (req : T.Req) (info : T.UnaryInfo)
        (h : UnaryHandler T),
        s.invokeUnary (fuel + 1) (unaryServerInterceptor.Interceptor ui) ctx req info h
          = unaryNested ((s.unary ui).map (s.invokeUnary fuel)) info h ctx req) ∧
    (∀ (T : Sig) (s : State T) (ui fuel : Nat) (fs : List (UnaryFn T)) (ctx : T.Ctx) (req : T.Req)
        (info : T.UnaryInfo) (h : UnaryHandler T),
        s.unary ui = fs.map GrpcUnaryServerInterceptor.fn →
        s.invokeUnary (fuel + 1) (unaryServerInterceptor.Interceptor ui) ctx req info h
          = unaryNested fs info h ctx req) ∧
    (∀ (T : Sig) (si : List (GrpcStreamServerInterceptor T)) (srv : T.Srv) (ss : T.Stream)
        (info : T.StreamInfo) (h : StreamHandler T),
        streamServerInterceptor.Interceptor si srv ss info h = streamNested si info h srv ss) ∧
    (∀ (s : State LogSig) (ui fuel : Nat) (names : List String) (ctx : List String) (req : Bool)
        (h : UnaryHandler LogSig),
        s.unary ui = names.map (fun n => GrpcUnaryServerInterceptor.fn (recordUnary n)) →
        s.invokeUnary (fuel + 1) (unaryServerInterceptor.Interceptor ui) ctx req () h
          = h (ctx ++ names) req) ∧
    (∀ (names : List String) (srv : List String) (h : StreamHandler LogSig),
        streamServerInterceptor.Interceptor (names.map recordStream) srv () () h
          = h (srv ++ names) ()) := by
  refine ⟨?_, ?_, ?_, ?_, ?_⟩
  · intro T s ui fuel ctx req info h
    exact invoke_closure s.unary fuel ui ctx req info h
  · intro T s ui fuel fs ctx req info h hs
    exact invoke_closure_fns s.unary fuel ui fs hs ctx req info h
  · intro T si srv ss info h
    exact stream_Interceptor_eq si srv ss info h
  · intro s ui fuel names ctx req h hs
    show GrpcUnaryServerInterceptor.invoke s.unary (fuel + 1) (.closure ui) ctx req () h = _
    have hm : names.map (fun n => GrpcUnaryServerInterceptor.fn (recordUnary n))
        = (names.map recordUnary).map GrpcUnaryServerInterceptor.fn := by
      rw [List.map_map]; rfl
    rw [invoke_closure, hs, hm, map_invoke_fn, unaryNested_record]
  · intro names srv h
    rw [stream_Interceptor_eq, streamNested_record]

/-- C1, at a concrete chain: three recording interceptors added in the order
`a`, `b`, `c` run in that order before the terminal handler. -/
theorem interceptor_is_right_fold_witness :
    (NewUnaryServerInterceptor (State.empty : State LogSig)
        (["a", "b", "c"].map (fun n => GrpcUnaryServerInterceptor.fn (recordUnary n)))).1.invokeUnary
      1 (unaryServerInterceptor.Interceptor 0) [] true () okHandler
      = some (["a", "b", "c", "terminal"], .ok "ok") :=
  interceptor_is_right_fold.2.2.2.1 _ 0 0 ["a", "b", "c"] [] true okHandler rfl

/-- C2: short-circuit.  If the entry at position `k` of a chain returns the same
result whatever `next` it is given, the result of the composed interceptor is
the same for every list of entries after position `k` and every terminal
handler, for unary chains (two chains of one state that agree up to `k`) and for
stream chains.  In the scenario chain `[logRequest, denyIfUnauthorized,
addTimingHeader]` an unauthorized request is denied with only `logRequest`
recorded, and an authorized one returns `"ok"` after `logRequest`,
`addTimingHeader` and the terminal handler, each recorded once. -/
theorem short_circuit_skips_rest :
    (∀ (T : Sig) (s : State T) (ui uj fuel : Nat)
        (pre post post' : List (GrpcUnaryServerInterceptor T)) (e : GrpcUnaryServerInterceptor T)
        (info : T.UnaryInfo),
        s.unary ui = pre ++ e :: post → s.unary uj = pre ++ e :: post' →
        (∀ ctx req n n', s.invokeUnary fuel e ctx req info n = s.invokeUnary fuel e ctx req info n') →
        ∀ (ctx : T.Ctx) (req : T.Req) (h h' : UnaryHandler T),
          s.invokeUnary (fuel + 1) (unaryServerInterceptor.Interceptor ui) ctx req info h
            = s.invokeUnary (fuel + 1) (unaryServerInterceptor.Interceptor uj) ctx req info h') ∧
    (∀ (T : Sig) (pre post post' : List (GrpcStreamServerInterceptor T))
        (e : GrpcStreamServerInterceptor T) (info : T.StreamInfo),
        (∀ srv ss n n', e srv ss info n = e srv ss info n') →
        ∀ (srv : T.Srv) (ss : T.Stream) (h h' : StreamHandler T),
          streamServerInterceptor.Interceptor (pre ++ e :: post) srv ss info h
            = streamServerInterceptor.Interceptor (pre ++ e :: post') srv ss info h') ∧
    (∀ fuel : Nat,
        scenarioState.invokeUnary (fuel + 1) (unaryServerInterceptor.Interceptor 0) [] false ()
            okHandler = some (["logRequest"], .error "denied")) ∧
    (∀ fuel : Nat,
        scenarioState.invokeUnary (fuel + 1) (unaryServerInterceptor.Interceptor 0) [] true ()
            okHandler = some (["logRequest", "addTimingHeader", "terminal"], .ok "ok")) := by
  refine ⟨?_, ?_, ?_, ?_⟩
  · intro T s ui uj fuel pre post post' e info hi hj he ctx req h h'
    show GrpcUnaryServerInterceptor.invoke s.unary (fuel + 1) (.closure ui) ctx req info h
      = GrpcUnaryServerInterceptor.invoke s.unary (fuel + 1) (.closure uj) ctx req info h'
    rw [invoke_closure, invoke_closure, hi, hj]
    simp only [List.map_append, List.map_cons]
    exact congrFun (congrFun (unaryNested_short _ _ _ _ info he h h') ctx) req
  · intro T pre post post' e info he srv ss h h'
    rw [stream_Interceptor_eq, stream_Interceptor_eq, streamNested_short pre post post' e info he h h']
  · intro fuel
    exact invoke_closure_fns scenarioState.unary fuel 0
      [logRequest, denyIfUnauthorized, addTimingHeader] rfl [] false () okHandler
  · intro fuel
    exact invoke_closure_fns scenarioState.unary fuel 0
      [logRequest, denyIfUnauthorized, addTimingHeader] rfl [] true () okHandler

/-- C2, at a concrete pair of chains: `[logRequest, denyAlways, addTimingHeader]`
with the terminal handler `okHandler` returns what `[logRequest, denyAlways]`
returns with a terminal handler that never returns. -/
theorem short_circuit_skips_rest_witness :
    shortCircuitState.invokeUnary 1 (unaryServerInterceptor.Interceptor 0) [] true () okHandler
      = shortCircuitState.invokeUnary 1 (unaryServerInterceptor.Interceptor 1) [] true ()
          (fun _ _ => none) ∧
    shortCircuitState.invokeUnary 1 (unaryServerInterceptor.Interceptor 0) [] true () okHandler
      = some (["logRequest"], .error "denied") :=
  ⟨short_circuit_skips_rest.1 LogSig shortCircuitState 0 1 0 [.fn logRequest]
      [.fn addTimingHeader] [] (.fn denyAlways) () rfl rfl (fun _ _ _ _ => rfl) [] true okHandler
      (fun _ _ => none), rfl⟩

/-- C3: empty chain identity.  The composed interceptor of a unary chain with no
entries, of the chain made by `NewUnaryServerInterceptor()` and of the unary
chain of a level or register just created returns `h(ctx, req)`; the composed
interceptor of an empty stream slice, of the chain made by
`NewStreamServerInterceptor()` and of the stream chain of a level or register
just created returns `h(srv, stream)`. -/
theorem empty_chain_is_terminal_handler :
    (∀ (T : Sig) (s : State T) (ui fuel : Nat) (ctx : T.Ctx) (req : T.Req) (info : T.UnaryInfo)
        (h : UnaryHandler T), s.unary ui = [] →
        s.invokeUnary (fuel + 1) (unaryServerInterceptor.Interceptor ui) ctx req info h
          = h ctx req) ∧
    (∀ (T : Sig) (s : State T) (fuel : Nat) (ctx : T.Ctx) (req : T.Req) (info : T.UnaryInfo)
        (h : UnaryHandler T),
        (NewUnaryServerInterceptor s []).1.invokeUnary (fuel + 1)
          (unaryServerInterceptor.Interceptor (NewUnaryServerInterceptor s []).2) ctx req info h
          = h ctx req) ∧
    (∀ (T : Sig) (s : State T) (index : String) (fuel : Nat) (ctx : T.Ctx) (req : T.Req)
        (info : T.UnaryInfo) (h : UnaryHandler T),
        (NewServerInterceptor s index).1.invokeUnary (fuel + 1)
          (unaryServerInterceptor.Interceptor
            ((NewServerInterceptor s index).2.UnaryServerInterceptor (NewServerInterceptor s index).1))
          ctx req info h = h ctx req ∧
        (NewServerInterceptorRegister s index).1.invokeUnary (fuel + 1)
          (unaryServerInterceptor.Interceptor
            ((ServerInterceptor.higher (NewServerInterceptorRegister s index).2).UnaryServerInterceptor
              (NewServerInterceptorRegister s index).1))
          ctx req info h = h ctx req) ∧
    (∀ (T : Sig) (srv : T.Srv) (ss : T.Stream) (info : T.StreamInfo) (h : StreamHandler T),
        streamServerInterceptor.Interceptor [] srv ss info h = h srv ss) ∧
    (∀ (T : Sig) (s : State T) (srv : T.Srv) (ss : T.Stream) (info : T.StreamInfo)
        (h : StreamHandler T),
        streamServerInterceptor.Interceptor
          ((NewStreamServerInterceptor s []).1.stream (NewStreamServerInterceptor s []).2)
          srv ss info h = h srv ss) ∧
    (∀ (T : Sig) (s : State T) (index : String) (srv : T.Srv) (ss : T.Stream)
        (info : T.StreamInfo) (h : StreamHandler T),
        streamServerInterceptor.Interceptor
          ((NewServerInterceptor s index).1.stream
            ((NewServerInterceptor s index).2.StreamServerInterceptor (NewServerInterceptor s index).1))
          srv ss info h = h srv ss ∧
        streamServerInterceptor.Interceptor
          ((NewServerInterceptorRegister s index).1.stream
            ((ServerInterceptor.higher (NewServerInterceptorRegister s index).2).StreamServerInterceptor
              (NewServerInterceptorRegister s index).1))
          srv ss info h = h srv ss) := by
  refine ⟨?_, ?_, ?_, ?_, ?_, ?_⟩
  · intro T s ui fuel ctx req info h hs
    exact invoke_closure_fns s.unary fuel ui [] hs ctx req info h
  · intro T s fuel ctx req info h
    refine invoke_closure_fns _ fuel _ [] ?_ ctx req info h
    simp [NewUnaryServerInterceptor]
  · intro T s index fuel ctx req info h
    constructor
    · refine invoke_closure_fns _ fuel _ [] ?_ ctx req info h
      simp [NewServerInterceptor, NewUnaryServerInterceptor, NewStreamServerInterceptor,
        ServerInterceptor.UnaryServerInterceptor, lowerServerInterceptor.UnaryServerInterceptor,
        ServerInterceptor.receiver]
    · refine invoke_closure_fns _ fuel _ [] ?_ ctx req info h
      simp [NewServerInterceptorRegister, NewServerInterceptor, NewUnaryServerInterceptor,
        NewStreamServerInterceptor,
        ServerInterceptor.UnaryServerInterceptor, lowerServerInterceptor.UnaryServerInterceptor,
        ServerInterceptor.receiver]
  · intro T srv ss info h
    rfl
  · intro T s srv ss info h
    rw [stream_Interceptor_eq]
    simp [NewStreamServerInterceptor, streamNested]
  · intro T s index srv ss info h
    constructor
    · rw [stream_Interceptor_eq]
      simp [NewServerInterceptor, NewUnaryServerInterceptor, NewStreamServerInterceptor,
        ServerInterceptor.StreamServerInterceptor, lowerServerInterceptor.StreamServerInterceptor,
        ServerInterceptor.receiver, streamNested]
    · rw [stream_Interceptor_eq]
      simp [NewServerInterceptorRegister, NewServerInterceptor, NewUnaryServerInterceptor,
        NewStreamServerInterceptor,
        ServerInterceptor.StreamServerInterceptor, lowerServerInterceptor.StreamServerInterceptor,
        ServerInterceptor.receiver, streamNested]

/-- C3, at a concrete state: the unary chain of the level `NewServerInterceptor("svc")`
made in the empty heap composes to the terminal handler. -/
theorem empty_chain_is_terminal_handler_witness :
    (NewServerInterceptor (State.empty : State LogSig) "svc").1.invokeUnary 1
        (unaryServerInterceptor.Interceptor 0) ["start"] true () okHandler
      = some (["start", "terminal"], .ok "ok") :=
  empty_chain_is_terminal_handler.1 LogSig _ 0 0 ["start"] true () okHandler rfl

theorem unaryNested_snoc_closure (heap : Nat → List (GrpcUnaryServerInterceptor T)) (fuel ul : Nat)
    (fs : List (UnaryFn T)) (info : T.UnaryInfo) (h : UnaryHandler T) :
    unaryNested (fs ++ [GrpcUnaryServerInterceptor.invoke heap (fuel + 1) (.closure ul)]) info h
      = unaryNested (fs ++ (heap ul).map (GrpcUnaryServerInterceptor.invoke heap fuel)) info h := by
  have hone : unaryNested [GrpcUnaryServerInterceptor.invoke heap (fuel + 1) (.closure ul)] info h
      = unaryNested ((heap ul).map (GrpcUnaryServerInterceptor.invoke heap fuel)) info h := by
    funext ctx req
    exact invoke_closure heap fuel ul ctx req info h
  rw [unaryNested_append, unaryNested_append, hone]

theorem streamNested_snoc_Interceptor (xs ls : List (GrpcStreamServerInterceptor T))
    (info : T.StreamInfo) (h : StreamHandler T) :
    streamNested (xs ++ [streamServerInterceptor.Interceptor ls]) info h
      = streamNested (xs ++ ls) info h := by
  have hone : streamNested [streamServerInterceptor.Interceptor ls] info h
      = streamNested ls info h := by
    funext srv ss
    exact stream_Interceptor_eq ls srv ss info h
  rw [streamNested_append, streamNested_append, hone]

theorem unary_AddInterceptor_one (s : State T) (ui ul : Nat) :
    (unaryServerInterceptor.AddInterceptor s ui [ul]).1.unary
      = Function.update s.unary ui (s.unary ui ++ [.closure ul]) := rfl

theorem stream_AddInterceptor_one (s : State T) (si sl : Nat) :
    (streamServerInterceptor.AddInterceptor s si [sl]).1.stream
      = Function.update s.stream si
          (s.stream si ++ [streamServerInterceptor.Interceptor (s.stream sl)]) := rfl

/-- C5: a unary composed interceptor reflects the chain at invocation.  If `g`
is obtained by `Interceptor()` from a chain holding `xs` and `ys` is appended
afterwards by `AddGRPCInterceptor`, invoking `g` in the new state is the nesting
of the entries `xs ++ ys`; for caller-supplied functions `xs` and `ys` it is the
nesting of `xs ++ ys` with any fuel, and with recording interceptors the terminal
handler receives the names of `xs` followed by those of `ys`. -/
theorem unary_interceptor_reads_latest_chain :
    (∀ (T : Sig) (s : State T) (ui fuel : Nat) (ys : List (GrpcUnaryServerInterceptor T))
        (ctx : T.Ctx) (req : T.Req) (info : T.UnaryInfo) (h : UnaryHandler T),
        (unaryServerInterceptor.AddGRPCInterceptor s ui ys).1.invokeUnary (fuel + 1)
            (unaryServerInterceptor.Interceptor ui) ctx req info h
          = unaryNested
              ((s.unary ui ++ ys).map
                ((unaryServerInterceptor.AddGRPCInterceptor s ui ys).1.invokeUnary fuel))
              info h ctx req) ∧
    (∀ (T : Sig) (s : State T) (ui fuel : Nat) (xs ys : List (UnaryFn T))
        (ctx : T.Ctx) (req : T.Req) (info : T.UnaryInfo) (h : UnaryHandler T),
        s.unary ui = xs.map GrpcUnaryServerInterceptor.fn →
        (unaryServerInterceptor.AddGRPCInterceptor s ui
              (ys.map GrpcUnaryServerInterceptor.fn)).1.invokeUnary (fuel + 1)
            (unaryServerInterceptor.Interceptor ui) ctx req info h
          = unaryNested (xs ++ ys) info h ctx req) ∧
    (∀ (s : State LogSig) (ui fuel : Nat) (xs ys : List String) (ctx : List String) (req : Bool)
        (h : UnaryHandler LogSig),
        s.unary ui = xs.map (fun n => GrpcUnaryServerInterceptor.fn (recordUnary n)) →
        (unaryServerInterceptor.AddGRPCInterceptor s ui
              (ys.map (fun n => GrpcUnaryServerInterceptor.fn (recordUnary n)))).1.invokeUnary
            (fuel + 1) (unaryServerInterceptor.Interceptor ui) ctx req () h
          = h (ctx ++ (xs ++ ys)) req) := by
  have hupd : ∀ (T : Sig) (s : State T) (ui : Nat) (ys : List (GrpcUnaryServerInterceptor T)),
      (unaryServerInterceptor.AddGRPCInterceptor s ui ys).1.unary ui = s.unary ui ++ ys := by
    intro T s ui ys
    show Function.update s.unary ui (s.unary ui ++ ys) ui = _
    rw [Function.update_same]
  refine ⟨?_, ?_, ?_⟩
  · intro T s ui fuel ys ctx req info h
    show GrpcUnaryServerInterceptor.invoke _ (fuel + 1) (.closure ui) ctx req info h = _
    rw [invoke_closure, hupd]
    rfl
  · intro T s ui fuel xs ys ctx req info h hs
    refine invoke_closure_fns _ fuel ui (xs ++ ys) ?_ ctx req info h
    rw [hupd, hs, List.map_append]
  · intro s ui fuel xs ys ctx req h hs
    have hm : ∀ zs : List String,
        zs.map (fun n => GrpcUnaryServerInterceptor.fn (recordUnary n))
          = (zs.map recordUnary).map GrpcUnaryServerInterceptor.fn := by
      intro zs; rw [List.map_map]; rfl
    have := invoke_closure_fns
      (unaryServerInterceptor.AddGRPCInterceptor s ui
        (ys.map (fun n => GrpcUnaryServerInterceptor.fn (recordUnary n)))).1.unary fuel ui
      ((xs ++ ys).map recordUnary) (by rw [hupd, hs, hm, hm, List.map_append, List.map_append])
      ctx req () h
    rw [unaryNested_record] at this
    exact this

/-- C5, at a concrete chain: `g` is taken from the chain `[x]`, then `a` is
appended; invoking `g` runs `x`, `a` and the terminal handler. -/
theorem unary_interceptor_reads_latest_chain_witness :
    (unaryServerInterceptor.AddGRPCInterceptor adoptState 0
          (["a"].map (fun n => GrpcUnaryServerInterceptor.fn (recordUnary n)))).1.invokeUnary 1
        (unaryServerInterceptor.Interceptor 0) [] true () okHandler
      = some (["x", "a", "terminal"], .ok "ok") :=
  unary_interceptor_reads_latest_chain.2.2 adoptState 0 0 ["x"] ["a"] [] true okHandler rfl

/-- C6: the stream `Interceptor` has a value receiver, so the interceptor `g`
obtained from a chain holding `xs` keeps composing `xs` after `ys` is appended to
the chain.  On the empty chain, with the recording interceptor `a` appended after
`g` was obtained, `g` hands the terminal handler the empty log, while the
composition of the chain as it is at invocation hands it the log `[a]`. -/
theorem stream_interceptor_keeps_old_chain :
    (∀ (T : Sig) (s : State T) (si : Nat) (ys : List (GrpcStreamServerInterceptor T))
        (srv : T.Srv) (ss : T.Stream) (info : T.StreamInfo) (h : StreamHandler T),
        (streamServerInterceptor.AddGRPCInterceptor s si ys).1.stream si = s.stream si ++ ys ∧
        streamServerInterceptor.Interceptor (s.stream si) srv ss info h
          = streamNested (s.stream si) info h srv ss) ∧
    streamServerInterceptor.Interceptor (emptyStreamState.stream 0) [] () () logHandler = [] ∧
    streamServerInterceptor.Interceptor
        ((streamServerInterceptor.AddGRPCInterceptor emptyStreamState 0
          [recordStream "a"]).1.stream 0) [] () () logHandler = ["a"] ∧
    streamNested (emptyStreamState.stream 0 ++ [recordStream "a"]) () logHandler [] () = ["a"] := by
  refine ⟨?_, rfl, rfl, rfl⟩
  intro T s si ys srv ss info h
  refine ⟨?_, stream_Interceptor_eq _ srv ss info h⟩
  show Function.update s.stream si (s.stream si ++ ys) si = _
  rw [Function.update_same]

/-! ## Registers -/

theorem Register_higher_same (s : State T) (r : Nat) (level : ServerInterceptor) :
    (higherServerInterceptorLevel.Register s r level).higher r
      = ⟨(s.higher r).ServerInterceptor,
          Function.update (s.higher r).sublevels (level.Index s) (some level)⟩ := by
  show Function.update s.higher r _ r = _
  rw [Function.update_same]

theorem Register_higher_other (s : State T) (r r' : Nat) (level : ServerInterceptor)
    (hne : r' ≠ r) :
    (higherServerInterceptorLevel.Register s r level).higher r' = s.higher r' := by
  show Function.update s.higher r _ r' = _
  rw [Function.update_noteq hne]

theorem Register_receiver (s : State T) (r : Nat) (level x : ServerInterceptor) :
    x.receiver (higherServerInterceptorLevel.Register s r level) = x.receiver s := by
  cases x with
  | lower l => rfl
  | higher l =>
    show ((higherServerInterceptorLevel.Register s r level).higher l).ServerInterceptor = _
    by_cases hl : l = r
    · subst hl
      rw [Register_higher_same]
      rfl
    · rw [Register_higher_other s r l level hl]
      rfl

theorem Register_Index (s : State T) (r : Nat) (level x : ServerInterceptor) :
    x.Index (higherServerInterceptorLevel.Register s r level) = x.Index s := by
  show ((higherServerInterceptorLevel.Register s r level).lower
    (x.receiver (higherServerInterceptorLevel.Register s r level))).index = _
  rw [Register_receiver]
  rfl

theorem Register_UnaryServerInterceptor (s : State T) (r : Nat) (level x : ServerInterceptor) :
    x.UnaryServerInterceptor (higherServerInterceptorLevel.Register s r level)
      = x.UnaryServerInterceptor s := by
  show ((higherServerInterceptorLevel.Register s r level).lower
    (x.receiver (higherServerInterceptorLevel.Register s r level))).unaries = _
  rw [Register_receiver]
  rfl

theorem Register_StreamServerInterceptor (s : State T) (r : Nat) (level x : ServerInterceptor) :
    x.StreamServerInterceptor (higherServerInterceptorLevel.Register s r level)
      = x.StreamServerInterceptor s := by
  show ((higherServerInterceptorLevel.Register s r level).lower
    (x.receiver (higherServerInterceptorLevel.Register s r level))).streams = _
  rw [Register_receiver]
  rfl

theorem Get_Register_same (s : State T) (r : Nat) (level : ServerInterceptor) :
    higherServerInterceptorLevel.Get (higherServerInterceptorLevel.Register s r level) r
      (level.Index s) = (some level, true) := by
  unfold higherServerInterceptorLevel.Get
  rw [Register_higher_same]
  simp

theorem Get_Register_other_key (s : State T) (r : Nat) (level : ServerInterceptor) (k : String)
    (hk : k ≠ level.Index s) :
    higherServerInterceptorLevel.Get (higherServerInterceptorLevel.Register s r level) r k
      = higherServerInterceptorLevel.Get s r k := by
  unfold higherServerInterceptorLevel.Get
  rw [Register_higher_same]
  simp [Function.update_noteq hk]

theorem Get_Register_other_register (s : State T) (r r' : Nat) (level : ServerInterceptor)
    (k : String) (hr : r' ≠ r) :
    higherServerInterceptorLevel.Get (higherServerInterceptorLevel.Register s r level) r' k
      = higherServerInterceptorLevel.Get s r' k := by
  unfold higherServerInterceptorLevel.Get
  rw [Register_higher_other s r r' level hr]

theorem Register_Register_same_key (s : State T) (r : Nat) (l1 l2 : ServerInterceptor)
    (hk : l1.Index s = l2.Index s) :
    higherServerInterceptorLevel.Register (higherServerInterceptorLevel.Register s r l1) r l2
      = higherServerInterceptorLevel.Register s r l2 := by
  have h2 := Register_Index s r l1 l2
  have hs := Register_higher_same s r l1
  unfold higherServerInterceptorLevel.Register at *
  simp only [] at hs ⊢
  rw [h2, hs]
  simp only [Function.update_idem, hk]

theorem keysAreIndexes_Register (s : State T) (r : Nat) (level : ServerInterceptor)
    (hinv : keysAreIndexes s r) :
    keysAreIndexes (higherServerInterceptorLevel.Register s r level) r := by
  intro k x hx
  rw [Register_Index]
  rw [Register_higher_same] at hx
  by_cases hk : k = level.Index s
  · subst hk
    simp only [Function.update_same, Option.some.injEq] at hx
    rw [← hx]
  · simp only [Function.update_noteq hk] at hx
    exact hinv k x hx

/-- C7: registry overwrite.  When `L1` and `L2` have the same index `k`, after
`Register(L1)` then `Register(L2)`: `Get(k)` returns `(L2, true)`; the state is
the one `Register(L2)` alone produces, so the first registration leaves no
trace; if `L1` and `L2` are different values and every binding is under the
index of its level (which `Register` preserves), `Get` returns `L1` under no
key; and the chains, the levels and every index are as before the two
registrations. -/
theorem register_overwrites (s : State T) (r : Nat) (l1 l2 : ServerInterceptor) (k : String)
    (h1 : l1.Index s = k) (h2 : l2.Index s = k) :
    higherServerInterceptorLevel.Get
        (higherServerInterceptorLevel.Register (higherServerInterceptorLevel.Register s r l1) r l2)
        r k = (some l2, true) ∧
    higherServerInterceptorLevel.Register (higherServerInterceptorLevel.Register s r l1) r l2
      = higherServerInterceptorLevel.Register s r l2 ∧
    (l1 ≠ l2 → keysAreIndexes s r → ∀ k' : String,
      (higherServerInterceptorLevel.Get
        (higherServerInterceptorLevel.Register (higherServerInterceptorLevel.Register s r l1) r l2)
        r k').1 ≠ some l1) ∧
    (keysAreIndexes s r → keysAreIndexes
      (higherServerInterceptorLevel.Register (higherServerInterceptorLevel.Register s r l1) r l2)
      r) ∧
    (higherServerInterceptorLevel.Register
        (higherServerInterceptorLevel.Register s r l1) r l2).unary = s.unary ∧
    (higherServerInterceptorLevel.Register
        (higherServerInterceptorLevel.Register s r l1) r l2).stream = s.stream ∧
    (higherServerInterceptorLevel.Register
        (higherServerInterceptorLevel.Register s r l1) r l2).lower = s.lower ∧
    (∀ x : ServerInterceptor,
      x.Index (higherServerInterceptorLevel.Register
        (higherServerInterceptorLevel.Register s r l1) r l2) = x.Index s ∧
      x.UnaryServerInterceptor (higherServerInterceptorLevel.Register
        (higherServerInterceptorLevel.Register s r l1) r l2) = x.UnaryServerInterceptor s ∧
      x.StreamServerInterceptor (higherServerInterceptorLevel.Register
        (higherServerInterceptorLevel.Register s r l1) r l2) = x.StreamServerInterceptor s) := by
  have hsame := Register_Register_same_key s r l1 l2 (h1.trans h2.symm)
  refine ⟨?_, hsame, ?_, ?_, rfl, rfl, rfl, ?_⟩
  · rw [hsame, ← h2]
    exact Get_Register_same s r l2
  · intro hne hinv k' hget
    rw [hsame] at hget
    by_cases hk : k' = l2.Index s
    · rw [hk, Get_Register_same] at hget
      exact hne (Option.some.inj hget).symm
    · rw [Get_Register_other_key s r l2 k' hk] at hget
      have := hinv k' l1 hget
      exact hk (by rw [← this, h1, h2])
  · intro hinv
    exact keysAreIndexes_Register _ r l2 (keysAreIndexes_Register s r l1 hinv)
  · intro x
    refine ⟨?_, ?_, ?_⟩
    · rw [Register_Index, Register_Index]
    · rw [Register_UnaryServerInterceptor, Register_UnaryServerInterceptor]
    · rw [Register_StreamServerInterceptor, Register_StreamServerInterceptor]

/-- C7, at a concrete state: two levels of index `svc` are registered one after
the other in an empty register; `Get("svc")` returns the second and no key
returns the first. -/
theorem register_overwrites_witness :
    higherServerInterceptorLevel.Get
        (higherServerInterceptorLevel.Register
          (higherServerInterceptorLevel.Register overwriteState 0 (.lower 1)) 0 (.lower 2))
        0 "svc" = (some (.lower 2), true) ∧
    ∀ k' : String,
      (higherServerInterceptorLevel.Get
        (higherServerInterceptorLevel.Register
          (higherServerInterceptorLevel.Register overwriteState 0 (.lower 1)) 0 (.lower 2))
        0 k').1 ≠ some (.lower 1) :=
  ⟨(register_overwrites overwriteState 0 (.lower 1) (.lower 2) "svc" rfl rfl).1,
   (register_overwrites overwriteState 0 (.lower 1) (.lower 2) "svc" rfl rfl).2.2.1
      (by decide)
      (fun _ x hx => absurd (show (none : Option ServerInterceptor) = some x from hx) (by simp))⟩

/-- C8: register/get round trip with frame.  After `Register(L)`,
`Get(L.Index())` returns `(L, true)`; `Get(k)` for every other key `k`, and `Get`
on every other register, return what they returned before. -/
theorem register_get_round_trip (T : Sig) (s : State T) (r : Nat) (level : ServerInterceptor) :
    higherServerInterceptorLevel.Get (higherServerInterceptorLevel.Register s r level) r
        (level.Index s) = (some level, true) ∧
    (∀ k : String, k ≠ level.Index s →
      higherServerInterceptorLevel.Get (higherServerInterceptorLevel.Register s r level) r k
        = higherServerInterceptorLevel.Get s r k) ∧
    (∀ (r' : Nat) (k : String), r' ≠ r →
      higherServerInterceptorLevel.Get (higherServerInterceptorLevel.Register s r level) r' k
        = higherServerInterceptorLevel.Get s r' k) :=
  ⟨Get_Register_same s r level, fun k hk => Get_Register_other_key s r level k hk,
   fun r' k hr => Get_Register_other_register s r r' level k hr⟩

/-! ## What each call leaves unchanged -/

theorem foldl_invariant {α β : Type} (P : β → Prop) (f : β → α → β)
    (hf : ∀ b a, P b → P (f b a)) : ∀ (l : List α) (b : β), P b → P (l.foldl f b) := by
  intro l
  induction l with
  | nil => intro b hb; exact hb
  | cons a rest ih => intro b hb; exact ih (f b a) (hf b a hb)

theorem unary_AddInterceptor_frame (s : State T) (ui : Nat) (arr : List Nat) :
    (unaryServerInterceptor.AddInterceptor s ui arr).1.stream = s.stream ∧
    (unaryServerInterceptor.AddInterceptor s ui arr).1.lower = s.lower ∧
    (unaryServerInterceptor.AddInterceptor s ui arr).1.higher = s.higher ∧
    (unaryServerInterceptor.AddInterceptor s ui arr).1.nextUnary = s.nextUnary ∧
    (unaryServerInterceptor.AddInterceptor s ui arr).1.nextStream = s.nextStream ∧
    (unaryServerInterceptor.AddInterceptor s ui arr).1.nextLower = s.nextLower ∧
    (unaryServerInterceptor.AddInterceptor s ui arr).1.nextHigher = s.nextHigher := by
  unfold unaryServerInterceptor.AddInterceptor
  refine foldl_invariant
    (fun st : State T => st.stream = s.stream ∧ st.lower = s.lower ∧ st.higher = s.higher ∧
      st.nextUnary = s.nextUnary ∧ st.nextStream = s.nextStream ∧ st.nextLower = s.nextLower ∧
      st.nextHigher = s.nextHigher) _ ?_ arr s ⟨rfl, rfl, rfl, rfl, rfl, rfl, rfl⟩
  intro st i hst
  exact hst

theorem stream_AddInterceptor_frame (s : State T) (si : Nat) (arr : List Nat) :
    (streamServerInterceptor.AddInterceptor s si arr).1.unary = s.unary ∧
    (streamServerInterceptor.AddInterceptor s si arr).1.lower = s.lower ∧
    (streamServerInterceptor.AddInterceptor s si arr).1.higher = s.higher ∧
    (streamServerInterceptor.AddInterceptor s si arr).1.nextUnary = s.nextUnary ∧
    (streamServerInterceptor.AddInterceptor s si arr).1.nextStream = s.nextStream ∧
    (streamServerInterceptor.AddInterceptor s si arr).1.nextLower = s.nextLower ∧
    (streamServerInterceptor.AddInterceptor s si arr).1.nextHigher = s.nextHigher := by
  unfold streamServerInterceptor.AddInterceptor
  refine foldl_invariant
    (fun st : State T => st.unary = s.unary ∧ st.lower = s.lower ∧ st.higher = s.higher ∧
      st.nextUnary = s.nextUnary ∧ st.nextStream = s.nextStream ∧ st.nextLower = s.nextLower ∧
      st.nextHigher = s.nextHigher) _ ?_ arr s ⟨rfl, rfl, rfl, rfl, rfl, rfl, rfl⟩
  intro st i hst
  exact hst

theorem Merge_frame (s : State T) (l : Nat) (interceptors : List ServerInterceptor) :
    (lowerServerInterceptor.Merge s l interceptors).1.lower = s.lower ∧
    (lowerServerInterceptor.Merge s l interceptors).1.higher = s.higher ∧
    (lowerServerInterceptor.Merge s l interceptors).1.nextUnary = s.nextUnary ∧
    (lowerServerInterceptor.Merge s l interceptors).1.nextStream = s.nextStream ∧
    (lowerServerInterceptor.Merge s l interceptors).1.nextLower = s.nextLower ∧
    (lowerServerInterceptor.Merge s l interceptors).1.nextHigher = s.nextHigher := by
  unfold lowerServerInterceptor.Merge
  refine foldl_invariant
    (fun st : State T => st.lower = s.lower ∧ st.higher = s.higher ∧
      st.nextUnary = s.nextUnary ∧ st.nextStream = s.nextStream ∧ st.nextLower = s.nextLower ∧
      st.nextHigher = s.nextHigher) _ ?_ interceptors s ⟨rfl, rfl, rfl, rfl, rfl, rfl⟩
  intro st i hst
  obtain ⟨h1, h2, h3, h4, h5, h6⟩ := hst
  have hu := unary_AddInterceptor_frame st (st.lower l).unaries [i.UnaryServerInterceptor st]
  have hs := stream_AddInterceptor_frame
    (lowerServerInterceptor.AddUnaryInterceptor st l [i.UnaryServerInterceptor st]).1
    ((lowerServerInterceptor.AddUnaryInterceptor st l [i.UnaryServerInterceptor st]).1.lower l).streams
    [i.StreamServerInterceptor
      (lowerServerInterceptor.AddUnaryInterceptor st l [i.UnaryServerInterceptor st]).1]
  obtain ⟨-, u2, u3, u4, u5, u6, u7⟩ := hu
  obtain ⟨-, s2, s3, s4, s5, s6, s7⟩ := hs
  exact ⟨(s2.trans u2).trans h1, (s3.trans u3).trans h2, (s4.trans u4).trans h3,
    (s5.trans u5).trans h4, (s6.trans u6).trans h5, (s7.trans u7).trans h6⟩

theorem Op.run_nextHigher (s : State T) (op : Op T) :
    s.nextHigher ≤ (op.run s).nextHigher := by
  cases op with
  | streamAdd si arr => exact le_of_eq (stream_AddInterceptor_frame s si arr).2.2.2.2.2.2.symm
  | unaryAdd ui arr => exact le_of_eq (unary_AddInterceptor_frame s ui arr).2.2.2.2.2.2.symm
  | addUnary x arr =>
    exact le_of_eq (unary_AddInterceptor_frame s _ arr).2.2.2.2.2.2.symm
  | addStream x arr =>
    exact le_of_eq (stream_AddInterceptor_frame s _ arr).2.2.2.2.2.2.symm
  | merge x interceptors => exact le_of_eq (Merge_frame s _ interceptors).2.2.2.2.2.symm
  | newRegister index => exact Nat.le_succ _
  | _ => exact le_refl _

theorem Op.run_higher (s : State T) (op : Op T) (r : Nat) (hr : r < s.nextHigher)
    (hop : ∀ level, op ≠ .register r level) : (op.run s).higher r = s.higher r := by
  cases op with
  | streamAdd si arr =>
    show (streamServerInterceptor.AddInterceptor s si arr).1.higher r = _
    rw [(stream_AddInterceptor_frame s si arr).2.2.1]
  | unaryAdd ui arr =>
    show (unaryServerInterceptor.AddInterceptor s ui arr).1.higher r = _
    rw [(unary_AddInterceptor_frame s ui arr).2.2.1]
  | addUnary x arr =>
    show (unaryServerInterceptor.AddInterceptor s _ arr).1.higher r = _
    rw [(unary_AddInterceptor_frame s _ arr).2.2.1]
  | addStream x arr =>
    show (streamServerInterceptor.AddInterceptor s _ arr).1.higher r = _
    rw [(stream_AddInterceptor_frame s _ arr).2.2.1]
  | merge x interceptors =>
    show (lowerServerInterceptor.Merge s _ interceptors).1.higher r = _
    rw [(Merge_frame s _ interceptors).2.1]
  | newRegister index =>
    show Function.update s.higher s.nextHigher _ r = _
    rw [Function.update_noteq (Nat.ne_of_lt hr)]
  | register r' level =>
    have hne : r ≠ r' := fun h => hop level (by rw [h])
    exact Register_higher_other s r' r level hne
  | _ => rfl

theorem Op.run_Get (s : State T) (op : Op T) (r : Nat) (hr : r < s.nextHigher)
    (hop : ∀ level, op ≠ .register r level) (k : String) :
    higherServerInterceptorLevel.Get (op.run s) r k = higherServerInterceptorLevel.Get s r k := by
  unfold higherServerInterceptorLevel.Get
  rw [Op.run_higher s op r hr hop]

theorem runOps_cons (s : State T) (op : Op T) (ops : List (Op T)) :
    runOps s (op :: ops) = runOps (op.run s) ops := rfl

theorem Get_runOps (r : Nat) (k : String) :
    ∀ (ops : List (Op T)) (s : State T), r < s.nextHigher →
      ((higherServerInterceptorLevel.Get (runOps s ops) r k).2 = true ↔
        (higherServerInterceptorLevel.Get s r k).2 = true ∨ k ∈ registeredKeys r s ops) := by
  intro ops
  induction ops with
  | nil =>
    intro s _
    simp [runOps, registeredKeys]
  | cons op ops ih =>
    intro s hr
    have hr' : r < (op.run s).nextHigher := lt_of_lt_of_le hr (Op.run_nextHigher s op)
    rw [runOps_cons, ih (op.run s) hr']
    by_cases hreg : ∃ level, op = .register r level
    · obtain ⟨level, rfl⟩ := hreg
      have hkeys : registeredKeys r s (Op.register r level :: ops)
          = level.Index s :: registeredKeys r ((Op.register r level).run s) ops := by
        simp [registeredKeys]
      rw [hkeys]
      by_cases hk : k = level.Index s
      · subst hk
        have : (higherServerInterceptorLevel.Get ((Op.register r level).run s) r
            (level.Index s)).2 = true := by
          show (higherServerInterceptorLevel.Get
            (higherServerInterceptorLevel.Register s r level) r (level.Index s)).2 = true
          rw [Get_Register_same]
        simp [this]
      · have : higherServerInterceptorLevel.Get ((Op.register r level).run s) r k
            = higherServerInterceptorLevel.Get s r k :=
          Get_Register_other_key s r level k hk
        rw [this]
        simp [hk]
    · have hop : ∀ level, op ≠ .register r level := fun level h => hreg ⟨level, h⟩
      rw [Op.run_Get s op r hr hop k]
      have hkeys : registeredKeys r s (op :: ops) = registeredKeys r (op.run s) ops := by
        cases op with
        | register r' level =>
          have hne : r' ≠ r := fun h => hop level (by rw [h])
          simp [registeredKeys, hne]
        | _ => simp [registeredKeys]
      rw [hkeys]

theorem NewServerInterceptorRegister_fresh (s : State T) (index : String) :
    (NewServerInterceptorRegister s index).2 < (NewServerInterceptorRegister s index).1.nextHigher ∧
    ((NewServerInterceptorRegister s index).1.higher (NewServerInterceptorRegister s index).2).sublevels
      = fun _ => none := by
  constructor
  · exact Nat.lt_succ_self _
  · show higherServerInterceptorLevel.sublevels
      (Function.update (NewServerInterceptor s index).1.higher
        (NewServerInterceptor s index).1.nextHigher _ (NewServerInterceptor s index).1.nextHigher) = _
    rw [Function.update_same]

/-- C9: a lookup miss is a normal outcome.  `Get` returns either `(nil, false)`
or a level with `true`; on the register made by `NewServerInterceptorRegister`
it returns `(nil, false)` for every key; and after any sequence of calls made on
a state holding that new register, `Get(k)` has the flag `true` exactly when one
of the calls was `Register` on this register with a level whose `Index()` was
`k`, and returns `(nil, false)` otherwise.  The same holds from any state that
holds the register, relative to the bindings it already has. -/
theorem get_miss_is_not_found :
    (∀ (T : Sig) (s : State T) (r : Nat) (k : String),
      higherServerInterceptorLevel.Get s r k = (none, false) ∨
        ∃ x, higherServerInterceptorLevel.Get s r k = (some x, true)) ∧
    (∀ (T : Sig) (s : State T) (index k : String),
      higherServerInterceptorLevel.Get (NewServerInterceptorRegister s index).1
        (NewServerInterceptorRegister s index).2 k = (none, false)) ∧
    (∀ (T : Sig) (s : State T) (index : String) (ops : List (Op T)) (k : String),
      ((higherServerInterceptorLevel.Get (runOps (NewServerInterceptorRegister s index).1 ops)
          (NewServerInterceptorRegister s index).2 k).2 = true ↔
        k ∈ registeredKeys (NewServerInterceptorRegister s index).2
          (NewServerInterceptorRegister s index).1 ops) ∧
      (k ∉ registeredKeys (NewServerInterceptorRegister s index).2
          (NewServerInterceptorRegister s index).1 ops →
        higherServerInterceptorLevel.Get (runOps (NewServerInterceptorRegister s index).1 ops)
          (NewServerInterceptorRegister s index).2 k = (none, false))) ∧
    (∀ (T : Sig) (s : State T) (r : Nat) (ops : List (Op T)) (k : String), r < s.nextHigher →
      ((higherServerInterceptorLevel.Get (runOps s ops) r k).2 = true ↔
        (higherServerInterceptorLevel.Get s r k).2 = true ∨ k ∈ registeredKeys r s ops)) := by
  have shape : ∀ (T : Sig) (s : State T) (r : Nat) (k : String),
      higherServerInterceptorLevel.Get s r k = (none, false) ∨
        ∃ x, higherServerInterceptorLevel.Get s r k = (some x, true) := by
    intro T s r k
    unfold higherServerInterceptorLevel.Get
    cases (s.higher r).sublevels k with
    | none => exact Or.inl rfl
    | some x => exact Or.inr ⟨x, rfl⟩
  have fresh : ∀ (T : Sig) (s : State T) (index k : String),
      higherServerInterceptorLevel.Get (NewServerInterceptorRegister s index).1
        (NewServerInterceptorRegister s index).2 k = (none, false) := by
    intro T s index k
    unfold higherServerInterceptorLevel.Get
    rw [(NewServerInterceptorRegister_fresh s index).2]
    rfl
  have trace : ∀ (T : Sig) (s : State T) (index : String) (ops : List (Op T)) (k : String),
      ((higherServerInterceptorLevel.Get (runOps (NewServerInterceptorRegister s index).1 ops)
          (NewServerInterceptorRegister s index).2 k).2 = true ↔
        k ∈ registeredKeys (NewServerInterceptorRegister s index).2
          (NewServerInterceptorRegister s index).1 ops) := by
    intro T s index ops k
    rw [Get_runOps _ k ops _ (NewServerInterceptorRegister_fresh s index).1, fresh]
    simp
  refine ⟨shape, fresh, ?_, ?_⟩
  · intro T s index ops k
    refine ⟨trace T s index ops k, ?_⟩
    intro hk
    rcases shape T (runOps (NewServerInterceptorRegister s index).1 ops)
      (NewServerInterceptorRegister s index).2 k with h | ⟨x, h⟩
    · exact h
    · exact absurd ((trace T s index ops k).1 (by rw [h])) hk
  · intro T s r ops k hr
    exact Get_runOps r k ops s hr

/-- C9, at a concrete trace: in a new register, after a level of index `svc` is
made and registered, `Get("svc")` finds it and `Get("other")` returns
`(nil, false)`. -/
theorem get_miss_is_not_found_witness :
    (higherServerInterceptorLevel.Get
        (runOps (NewServerInterceptorRegister (State.empty : State LogSig) "reg").1
          [.newLevel "svc", .register 0 (.lower 1)]) 0 "svc").2 = true ∧
    higherServerInterceptorLevel.Get
        (runOps (NewServerInterceptorRegister (State.empty : State LogSig) "reg").1
          [.newLevel "svc", .register 0 (.lower 1)]) 0 "other" = (none, false) :=
  ⟨(get_miss_is_not_found.2.2.1 LogSig State.empty "reg"
      [.newLevel "svc", .register 0 (.lower 1)] "svc").1.2 (by decide),
   (get_miss_is_not_found.2.2.1 LogSig State.empty "reg"
      [.newLevel "svc", .register 0 (.lower 1)] "other").2 (by decide)⟩

/-! ## Merge -/

theorem Merge_append (s : State T) (a : ServerInterceptor) (xs ys : List ServerInterceptor) :
    (a.Merge s xs).2.Merge (a.Merge s xs).1 ys = a.Merge s (xs ++ ys) := by
  show lowerServerInterceptor.Merge (lowerServerInterceptor.Merge s (a.receiver s) xs).1
      (a.receiver s) ys = lowerServerInterceptor.Merge s (a.receiver s) (xs ++ ys)
  unfold lowerServerInterceptor.Merge
  rw [List.foldl_append]

/-- C10: merge associativity of content.  `A.Merge(B).Merge(C)` and
`A.Merge(B, C)` end in the same state and return the same value; so `A`'s unary
chain and `A`'s stream chain hold the same entries in the same order, and the
composed interceptors are the same.  More generally, merging `xs` and then `ys`
is merging `xs ++ ys`. -/
theorem merge_in_two_calls_or_one (T : Sig) (s : State T) (a b c : ServerInterceptor) :
    (a.Merge s [b]).2.Merge (a.Merge s [b]).1 [c] = a.Merge s [b, c] ∧
    ((a.Merge s [b]).2.Merge (a.Merge s [b]).1 [c]).1.unary (a.UnaryServerInterceptor s)
      = (a.Merge s [b, c]).1.unary (a.UnaryServerInterceptor s) ∧
    ((a.Merge s [b]).2.Merge (a.Merge s [b]).1 [c]).1.stream (a.StreamServerInterceptor s)
      = (a.Merge s [b, c]).1.stream (a.StreamServerInterceptor s) ∧
    (∀ (fuel : Nat) (ctx : T.Ctx) (req : T.Req) (info : T.UnaryInfo) (h : UnaryHandler T),
      ((a.Merge s [b]).2.Merge (a.Merge s [b]).1 [c]).1.invokeUnary fuel
          (unaryServerInterceptor.Interceptor (a.UnaryServerInterceptor s)) ctx req info h
        = (a.Merge s [b, c]).1.invokeUnary fuel
          (unaryServerInterceptor.Interceptor (a.UnaryServerInterceptor s)) ctx req info h) ∧
    (∀ (srv : T.Srv) (ss : T.Stream) (info : T.StreamInfo) (h : StreamHandler T),
      streamServerInterceptor.Interceptor
          (((a.Merge s [b]).2.Merge (a.Merge s [b]).1 [c]).1.stream (a.StreamServerInterceptor s))
          srv ss info h
        = streamServerInterceptor.Interceptor
          ((a.Merge s [b, c]).1.stream (a.StreamServerInterceptor s)) srv ss info h) ∧
    (∀ xs ys : List ServerInterceptor,
      (a.Merge s xs).2.Merge (a.Merge s xs).1 ys = a.Merge s (xs ++ ys)) := by
  have h := Merge_append s a [b] [c]
  refine ⟨h, ?_, ?_, ?_, ?_, fun xs ys => Merge_append s a xs ys⟩
  · rw [h]; rfl
  · rw [h]; rfl
  · intro fuel ctx req info hd
    rw [h]; rfl
  · intro srv ss info hd
    rw [h]; rfl

/-! ## The contents of the chains after `Merge` -/

theorem Merge_cons (s : State T) (l : Nat) (i : ServerInterceptor) (rest : List ServerInterceptor) :
    (lowerServerInterceptor.Merge s l (i :: rest)).1
      = (lowerServerInterceptor.Merge (lowerServerInterceptor.Merge s l [i]).1 l rest).1 := rfl

theorem Merge_one_unary (s : State T) (l : Nat) (i : ServerInterceptor) :
    (lowerServerInterceptor.Merge s l [i]).1.unary
      = Function.update s.unary (s.lower l).unaries
          (s.unary (s.lower l).unaries ++ [.closure (i.UnaryServerInterceptor s)]) := rfl

theorem Merge_one_stream (s : State T) (l : Nat) (i : ServerInterceptor) :
    (lowerServerInterceptor.Merge s l [i]).1.stream
      = Function.update s.stream (s.lower l).streams
          (s.stream (s.lower l).streams
            ++ [streamServerInterceptor.Interceptor (s.stream (i.StreamServerInterceptor s))]) := rfl

theorem Merge_one_pointers (s : State T) (l : Nat) (i x : ServerInterceptor) :
    (lowerServerInterceptor.Merge s l [i]).1.lower = s.lower ∧
    x.UnaryServerInterceptor (lowerServerInterceptor.Merge s l [i]).1
      = x.UnaryServerInterceptor s ∧
    x.StreamServerInterceptor (lowerServerInterceptor.Merge s l [i]).1
      = x.StreamServerInterceptor s := ⟨rfl, rfl, rfl⟩

theorem Merge_unary (l : Nat) (ls : List ServerInterceptor) :
    ∀ s : State T, (lowerServerInterceptor.Merge s l ls).1.unary
      = Function.update s.unary (s.lower l).unaries
          (s.unary (s.lower l).unaries
            ++ ls.map (fun i => GrpcUnaryServerInterceptor.closure (i.UnaryServerInterceptor s))) := by
  induction ls with
  | nil =>
    intro s
    show s.unary = _
    rw [List.map_nil, List.append_nil, Function.update_eq_self]
  | cons i rest ih =>
    intro s
    rw [Merge_cons, ih, Merge_one_unary]
    have hl : (lowerServerInterceptor.Merge s l [i]).1.lower = s.lower := rfl
    have hp : (fun j : ServerInterceptor => GrpcUnaryServerInterceptor.closure (T := T)
          (j.UnaryServerInterceptor (lowerServerInterceptor.Merge s l [i]).1))
        = fun j => GrpcUnaryServerInterceptor.closure (j.UnaryServerInterceptor s) := rfl
    rw [hl, hp, Function.update_same, Function.update_idem, List.map_cons, List.append_assoc]
    rfl

theorem Merge_stream (l : Nat) (ls : List ServerInterceptor) :
    ∀ s : State T, (∀ i ∈ ls, i.StreamServerInterceptor s ≠ (s.lower l).streams) →
      (lowerServerInterceptor.Merge s l ls).1.stream
        = Function.update s.stream (s.lower l).streams
            (s.stream (s.lower l).streams
              ++ ls.map (fun i =>
                  streamServerInterceptor.Interceptor (s.stream (i.StreamServerInterceptor s)))) := by
  induction ls with
  | nil =>
    intro s _
    show s.stream = _
    rw [List.map_nil, List.append_nil, Function.update_eq_self]
  | cons i rest ih =>
    intro s hd
    have hrest : ∀ j ∈ rest,
        j.StreamServerInterceptor (lowerServerInterceptor.Merge s l [i]).1
          ≠ ((lowerServerInterceptor.Merge s l [i]).1.lower l).streams :=
      fun j hj => hd j (List.mem_cons_of_mem i hj)
    rw [Merge_cons, ih _ hrest, Merge_one_stream]
    have hl : (lowerServerInterceptor.Merge s l [i]).1.lower = s.lower := rfl
    have hmap : rest.map (fun j => streamServerInterceptor.Interceptor
          (Function.update s.stream (s.lower l).streams
            (s.stream (s.lower l).streams
              ++ [streamServerInterceptor.Interceptor (s.stream (i.StreamServerInterceptor s))])
            (j.StreamServerInterceptor (lowerServerInterceptor.Merge s l [i]).1)))
        = rest.map (fun j =>
            streamServerInterceptor.Interceptor (s.stream (j.StreamServerInterceptor s))) := by
      apply List.map_congr_left
      intro j hj
      have hne : j.StreamServerInterceptor s ≠ (s.lower l).streams :=
        hd j (List.mem_cons_of_mem i hj)
      show streamServerInterceptor.Interceptor
        (Function.update s.stream _ _ (j.StreamServerInterceptor s)) = _
      rw [Function.update_noteq hne]
    rw [hl, hmap, Function.update_same, Function.update_idem, List.map_cons, List.append_assoc]
    rfl

theorem unaryNested_closures {α : Type} (p : α → Nat)
    (heap : Nat → List (GrpcUnaryServerInterceptor T)) (fuel : Nat)
    (info : T.UnaryInfo) (h : UnaryHandler T) (ps : List α) :
    ∀ fs : List (UnaryFn T),
      unaryNested
          (fs ++ ps.map (fun a => GrpcUnaryServerInterceptor.invoke heap (fuel + 1) (.closure (p a))))
          info h
        = unaryNested
            (fs ++ ps.flatMap
              (fun a => (heap (p a)).map (GrpcUnaryServerInterceptor.invoke heap fuel)))
            info h := by
  induction ps with
  | nil => intro fs; rfl
  | cons a rest ih =>
    intro fs
    rw [List.map_cons, List.flatMap_cons]
    have e1 : fs ++ GrpcUnaryServerInterceptor.invoke heap (fuel + 1) (.closure (p a))
          :: rest.map (fun a => GrpcUnaryServerInterceptor.invoke heap (fuel + 1) (.closure (p a)))
        = (fs ++ [GrpcUnaryServerInterceptor.invoke heap (fuel + 1) (.closure (p a))])
          ++ rest.map
            (fun a => GrpcUnaryServerInterceptor.invoke heap (fuel + 1) (.closure (p a))) := by
      simp
    rw [e1, ih, unaryNested_append, unaryNested_snoc_closure, ← unaryNested_append,
      List.append_assoc]

theorem flatMap_congr_mem {α β : Type} (l : List α) (f g : α → List β)
    (h : ∀ a ∈ l, f a = g a) : l.flatMap f = l.flatMap g := by
  induction l with
  | nil => rfl
  | cons a rest ih =>
    rw [List.flatMap_cons, List.flatMap_cons, h a (List.mem_cons_self a rest),
      ih (fun b hb => h b (List.mem_cons_of_mem a hb))]

theorem streamNested_Interceptors {α : Type} (f : α → List (GrpcStreamServerInterceptor T))
    (info : T.StreamInfo) (h : StreamHandler T) (ps : List α) :
    ∀ xs : List (GrpcStreamServerInterceptor T),
      streamNested (xs ++ ps.map (fun p => streamServerInterceptor.Interceptor (f p))) info h
        = streamNested (xs ++ ps.flatMap f) info h := by
  induction ps with
  | nil => intro xs; rfl
  | cons p rest ih =>
    intro xs
    rw [List.map_cons, List.flatMap_cons]
    have e1 : xs ++ streamServerInterceptor.Interceptor (f p)
          :: rest.map (fun p => streamServerInterceptor.Interceptor (f p))
        = (xs ++ [streamServerInterceptor.Interceptor (f p)])
          ++ rest.map (fun p => streamServerInterceptor.Interceptor (f p)) := by
      simp
    rw [e1, ih, streamNested_append, streamNested_snoc_Interceptor, ← streamNested_append,
      List.append_assoc]

/-- Merge order.  After `A.Merge(L1, ..., Lk)`, `A`'s unary chain is its old
contents followed by `k` new entries, the `j`-th being `Lj`'s composed unary
interceptor.  When the unary chains of `L1..Lk` are not `A`'s own, `A`'s composed
unary interceptor is the nesting of `A`'s old entries followed by the entries of
`L1`, ..., `Lk` in that order (for chains of caller-supplied functions `xs`,
`c1`, ..., `ck`: the nesting of `xs ++ c1 ++ ... ++ ck`).  When the stream chains
of `L1..Lk` are not `A`'s own, `A`'s stream chain is its old contents followed by
the composed stream interceptors of `L1..Lk`, and composes as the flat slice.
Merging changes no index, and no chain other than `A`'s two chains. -/
theorem merge_appends_in_argument_order :
    (∀ (T : Sig) (s : State T) (a : ServerInterceptor) (ls : List ServerInterceptor),
        (a.Merge s ls).1.unary (a.UnaryServerInterceptor s)
          = s.unary (a.UnaryServerInterceptor s)
            ++ ls.map (fun i => unaryServerInterceptor.Interceptor (i.UnaryServerInterceptor s)) ∧
        ((a.Merge s ls).1.unary (a.UnaryServerInterceptor s)).length
          = (s.unary (a.UnaryServerInterceptor s)).length + ls.length) ∧
    (∀ (T : Sig) (s : State T) (a : ServerInterceptor) (ls : List ServerInterceptor)
        (fuel : Nat) (ctx : T.Ctx) (req : T.Req) (info : T.UnaryInfo) (h : UnaryHandler T),
        (∀ i ∈ ls, i.UnaryServerInterceptor s ≠ a.UnaryServerInterceptor s) →
        (a.Merge s ls).1.invokeUnary (fuel + 2)
            (unaryServerInterceptor.Interceptor (a.UnaryServerInterceptor s)) ctx req info h
          = unaryNested
              ((s.unary (a.UnaryServerInterceptor s)).map
                  ((a.Merge s ls).1.invokeUnary (fuel + 1))
                ++ ls.flatMap (fun i =>
                  (s.unary (i.UnaryServerInterceptor s)).map ((a.Merge s ls).1.invokeUnary fuel)))
              info h ctx req) ∧
    (∀ (T : Sig) (s : State T) (a : ServerInterceptor) (ls : List ServerInterceptor)
        (xs : List (UnaryFn T)) (cs : ServerInterceptor → List (UnaryFn T))
        (fuel : Nat) (ctx : T.Ctx) (req : T.Req) (info : T.UnaryInfo) (h : UnaryHandler T),
        (∀ i ∈ ls, i.UnaryServerInterceptor s ≠ a.UnaryServerInterceptor s) →
        s.unary (a.UnaryServerInterceptor s) = xs.map GrpcUnaryServerInterceptor.fn →
        (∀ i ∈ ls, s.unary (i.UnaryServerInterceptor s)
          = (cs i).map GrpcUnaryServerInterceptor.fn) →
        (a.Merge s ls).1.invokeUnary (fuel + 2)
            (unaryServerInterceptor.Interceptor (a.UnaryServerInterceptor s)) ctx req info h
          = unaryNested (xs ++ ls.flatMap cs) info h ctx req) ∧
    (∀ (T : Sig) (s : State T) (a : ServerInterceptor) (ls : List ServerInterceptor)
        (srv : T.Srv) (ss : T.Stream) (info : T.StreamInfo) (h : StreamHandler T),
        (∀ i ∈ ls, i.StreamServerInterceptor s ≠ a.StreamServerInterceptor s) →
        (a.Merge s ls).1.stream (a.StreamServerInterceptor s)
          = s.stream (a.StreamServerInterceptor s)
            ++ ls.map (fun i =>
                streamServerInterceptor.Interceptor (s.stream (i.StreamServerInterceptor s))) ∧
        streamServerInterceptor.Interceptor
            ((a.Merge s ls).1.stream (a.StreamServerInterceptor s)) srv ss info h
          = streamNested
              (s.stream (a.StreamServerInterceptor s)
                ++ ls.flatMap (fun i => s.stream (i.StreamServerInterceptor s)))
              info h srv ss) ∧
    (∀ (T : Sig) (s : State T) (a : ServerInterceptor) (ls : List ServerInterceptor),
        (∀ x : ServerInterceptor,
          x.Index (a.Merge s ls).1 = x.Index s ∧
          x.UnaryServerInterceptor (a.Merge s ls).1 = x.UnaryServerInterceptor s ∧
          x.StreamServerInterceptor (a.Merge s ls).1 = x.StreamServerInterceptor s) ∧
        (∀ u : Nat, u ≠ a.UnaryServerInterceptor s → (a.Merge s ls).1.unary u = s.unary u) ∧
        ((∀ i ∈ ls, i.StreamServerInterceptor s ≠ a.StreamServerInterceptor s) →
          ∀ v : Nat, v ≠ a.StreamServerInterceptor s → (a.Merge s ls).1.stream v = s.stream v)) := by
  have hunary : ∀ (T : Sig) (s : State T) (a : ServerInterceptor) (ls : List ServerInterceptor),
      (a.Merge s ls).1.unary = Function.update s.unary (a.UnaryServerInterceptor s)
        (s.unary (a.UnaryServerInterceptor s)
          ++ ls.map (fun i => GrpcUnaryServerInterceptor.closure (i.UnaryServerInterceptor s))) :=
    fun T s a ls => Merge_unary (a.receiver s) ls s
  have hstream : ∀ (T : Sig) (s : State T) (a : ServerInterceptor) (ls : List ServerInterceptor),
      (∀ i ∈ ls, i.StreamServerInterceptor s ≠ a.StreamServerInterceptor s) →
      (a.Merge s ls).1.stream = Function.update s.stream (a.StreamServerInterceptor s)
        (s.stream (a.StreamServerInterceptor s)
          ++ ls.map (fun i =>
              streamServerInterceptor.Interceptor (s.stream (i.StreamServerInterceptor s)))) :=
    fun T s a ls hd => Merge_stream (a.receiver s) ls s hd
  have hnest : ∀ (T : Sig) (s : State T) (a : ServerInterceptor) (ls : List ServerInterceptor)
      (fuel : Nat) (ctx : T.Ctx) (req : T.Req) (info : T.UnaryInfo) (h : UnaryHandler T),
      (∀ i ∈ ls, i.UnaryServerInterceptor s ≠ a.UnaryServerInterceptor s) →
      (a.Merge s ls).1.invokeUnary (fuel + 2)
          (unaryServerInterceptor.Interceptor (a.UnaryServerInterceptor s)) ctx req info h
        = unaryNested
            ((s.unary (a.UnaryServerInterceptor s)).map
                ((a.Merge s ls).1.invokeUnary (fuel + 1))
              ++ ls.flatMap (fun i =>
                (s.unary (i.UnaryServerInterceptor s)).map ((a.Merge s ls).1.invokeUnary fuel)))
            info h ctx req := by
    intro T s a ls fuel ctx req info h hd
    show GrpcUnaryServerInterceptor.invoke (a.Merge s ls).1.unary (fuel + 2)
      (.closure (a.UnaryServerInterceptor s)) ctx req info h = _
    rw [invoke_closure]
    have hself : (a.Merge s ls).1.unary (a.UnaryServerInterceptor s)
        = s.unary (a.UnaryServerInterceptor s)
          ++ ls.map (fun i => GrpcUnaryServerInterceptor.closure (i.UnaryServerInterceptor s)) := by
      rw [hunary, Function.update_same]
    rw [hself, List.map_append, List.map_map]
    have hcl := unaryNested_closures (fun i : ServerInterceptor => i.UnaryServerInterceptor s)
      (a.Merge s ls).1.unary fuel info h ls
      ((s.unary (a.UnaryServerInterceptor s)).map
        (GrpcUnaryServerInterceptor.invoke (a.Merge s ls).1.unary (fuel + 1)))
    have hfm : ls.flatMap (fun i => ((a.Merge s ls).1.unary (i.UnaryServerInterceptor s)).map
          (GrpcUnaryServerInterceptor.invoke (a.Merge s ls).1.unary fuel))
        = ls.flatMap (fun i => (s.unary (i.UnaryServerInterceptor s)).map
          (GrpcUnaryServerInterceptor.invoke (a.Merge s ls).1.unary fuel)) := by
      apply flatMap_congr_mem
      intro i hi
      rw [hunary, Function.update_noteq (hd i hi)]
    rw [hfm] at hcl
    exact congrFun (congrFun hcl ctx) req
  refine ⟨?_, hnest, ?_, ?_, ?_⟩
  · intro T s a ls
    have hself : (a.Merge s ls).1.unary (a.UnaryServerInterceptor s)
        = s.unary (a.UnaryServerInterceptor s)
          ++ ls.map (fun i => unaryServerInterceptor.Interceptor (i.UnaryServerInterceptor s)) := by
      rw [hunary, Function.update_same]
      rfl
    refine ⟨hself, ?_⟩
    rw [hself, List.length_append, List.length_map]
  · intro T s a ls xs cs fuel ctx req info h hd hxs hcs
    rw [hnest T s a ls fuel ctx req info h hd, hxs]
    have h1 : (xs.map GrpcUnaryServerInterceptor.fn).map ((a.Merge s ls).1.invokeUnary (fuel + 1))
        = xs := map_invoke_fn _ _ xs
    have h2 : ls.flatMap (fun i =>
          (s.unary (i.UnaryServerInterceptor s)).map ((a.Merge s ls).1.invokeUnary fuel))
        = ls.flatMap cs := by
      apply flatMap_congr_mem
      intro i hi
      rw [hcs i hi]
      exact map_invoke_fn _ _ (cs i)
    rw [h1, h2]
  · intro T s a ls srv ss info h hd
    have hself : (a.Merge s ls).1.stream (a.StreamServerInterceptor s)
        = s.stream (a.StreamServerInterceptor s)
          ++ ls.map (fun i =>
              streamServerInterceptor.Interceptor (s.stream (i.StreamServerInterceptor s))) := by
      rw [hstream T s a ls hd, Function.update_same]
    refine ⟨hself, ?_⟩
    rw [hself, stream_Interceptor_eq,
      streamNested_Interceptors (fun i : ServerInterceptor => s.stream (i.StreamServerInterceptor s))]
  · intro T s a ls
    have hfr := Merge_frame s (a.receiver s) ls
    have hrecv : ∀ x : ServerInterceptor, x.receiver (a.Merge s ls).1 = x.receiver s := by
      intro x
      cases x with
      | lower l => rfl
      | higher l =>
        show ((a.Merge s ls).1.higher l).ServerInterceptor = (s.higher l).ServerInterceptor
        rw [show (a.Merge s ls).1.higher = s.higher from hfr.2.1]
    refine ⟨?_, ?_, ?_⟩
    · intro x
      refine ⟨?_, ?_, ?_⟩
      · show ((a.Merge s ls).1.lower (x.receiver (a.Merge s ls).1)).index = _
        rw [hrecv, show (a.Merge s ls).1.lower = s.lower from hfr.1]
        rfl
      · show ((a.Merge s ls).1.lower (x.receiver (a.Merge s ls).1)).unaries = _
        rw [hrecv, show (a.Merge s ls).1.lower = s.lower from hfr.1]
        rfl
      · show ((a.Merge s ls).1.lower (x.receiver (a.Merge s ls).1)).streams = _
        rw [hrecv, show (a.Merge s ls).1.lower = s.lower from hfr.1]
        rfl
    · intro u hu
      rw [hunary, Function.update_noteq hu]
    · intro hd v hv
      rw [hstream T s a ls hd, Function.update_noteq hv]

/-- Merge order at a concrete state: level `A` with unary chain `[x]` merges `L1` with
`[a]` and `L2` with `[b]`; its composed unary interceptor runs `x`, `a`, `b` and
the terminal handler, and its composed stream interceptor runs `sx`, `sa`, `sb`. -/
theorem merge_appends_in_argument_order_witness :
    ((ServerInterceptor.lower 0).Merge mergeState [.lower 1, .lower 2]).1.invokeUnary 2
        (unaryServerInterceptor.Interceptor 0) [] true () okHandler
      = some (["x", "a", "b", "terminal"], .ok "ok") ∧
    streamServerInterceptor.Interceptor
        (((ServerInterceptor.lower 0).Merge mergeState [.lower 1, .lower 2]).1.stream 0)
        [] () () logHandler = ["sx", "sa", "sb"] :=
  ⟨merge_appends_in_argument_order.2.2.1 LogSig mergeState (.lower 0) [.lower 1, .lower 2]
      [recordUnary "x"]
      (fun i => if i = .lower 1 then [recordUnary "a"] else [recordUnary "b"])
      0 [] true () okHandler (by decide) rfl
      (by
        intro i hi
        simp only [List.mem_cons, List.mem_singleton, List.not_mem_nil, or_false] at hi
        rcases hi with rfl | rfl <;> rfl),
   (merge_appends_in_argument_order.2.2.2.1 LogSig mergeState (.lower 0) [.lower 1, .lower 2]
      [] () () logHandler (by decide)).2⟩

/-! ## Chains that hold their own closure -/

theorem unaryNested_waits (fs : List (UnaryFn T)) (hfs : ∀ f ∈ fs, waitsForNext f)
    (info : T.UnaryInfo) (h : UnaryHandler T) (hh : ∀ c r, h c r = none) :
    ∀ c r, unaryNested fs info h c r = none := by
  induction fs with
  | nil => exact hh
  | cons f rest ih =>
    intro c r
    show f c r info (unaryNested rest info h) = none
    exact hfs f (List.mem_cons_self f rest) c r info _
      (ih (fun g hg => hfs g (List.mem_cons_of_mem f hg)))

theorem waitsForNext_recordUnary (name : String) : waitsForNext (recordUnary name) := by
  intro ctx req info next hnext
  exact hnext _ _

theorem self_closure_never_returns (heap : Nat → List (GrpcUnaryServerInterceptor T)) (u : Nat)
    (fs : List (UnaryFn T)) (hfs : ∀ f ∈ fs, waitsForNext f)
    (hu : heap u = fs.map GrpcUnaryServerInterceptor.fn ++ [.closure u]) (info : T.UnaryInfo)
    (h : UnaryHandler T) :
    ∀ (fuel : Nat) (ctx : T.Ctx) (req : T.Req),
      GrpcUnaryServerInterceptor.invoke heap fuel (.closure u) ctx req info h = none := by
  intro fuel
  induction fuel with
  | zero => intro ctx req; rfl
  | succ fuel ih =>
    intro ctx req
    rw [invoke_closure, hu, List.map_append, map_invoke_fn, List.map_singleton,
      unaryNested_append]
    exact unaryNested_waits fs hfs info _ (fun c r => ih c r) ctx req

/-- C12: merging a level into itself.  `L.Merge(L)` appends to `L`'s unary chain
the closure of that same chain, which reads the chain when invoked: if the
members of the chain wait for their `next`, the composed unary interceptor
returns with no amount of fuel, whatever the terminal handler, and the terminal
handler is never reached.  The stream chain, whose `Interceptor` copies the
slice, gets its entries duplicated: it runs `s1..sm`, `s1..sm` and the terminal
handler.  On the level with unary chain `[a1]` and stream chain `[s1]`: the
unary call never returns, where the log `a1, a1, terminal` was expected; the
stream call returns the log `s1, s1`. -/
theorem self_merge_unary_never_returns :
    (∀ (T : Sig) (s : State T) (x : ServerInterceptor) (fs : List (UnaryFn T)) (fuel : Nat)
        (ctx : T.Ctx) (req : T.Req) (info : T.UnaryInfo) (h : UnaryHandler T),
        s.unary (x.UnaryServerInterceptor s) = fs.map GrpcUnaryServerInterceptor.fn →
        (∀ f ∈ fs, waitsForNext f) →
        (x.Merge s [x]).1.unary (x.UnaryServerInterceptor s)
            = fs.map GrpcUnaryServerInterceptor.fn
              ++ [unaryServerInterceptor.Interceptor (x.UnaryServerInterceptor s)] ∧
        (x.Merge s [x]).1.invokeUnary fuel
            (unaryServerInterceptor.Interceptor (x.UnaryServerInterceptor s)) ctx req info h
          = none) ∧
    (∀ (T : Sig) (s : State T) (x : ServerInterceptor) (srv : T.Srv) (ss : T.Stream)
        (info : T.StreamInfo) (h : StreamHandler T),
        streamServerInterceptor.Interceptor
            ((x.Merge s [x]).1.stream (x.StreamServerInterceptor s)) srv ss info h
          = streamNested
              (s.stream (x.StreamServerInterceptor s) ++ s.stream (x.StreamServerInterceptor s))
              info h srv ss) ∧
    (∀ fuel : Nat,
        ((ServerInterceptor.lower 0).Merge selfMergeState [.lower 0]).1.invokeUnary fuel
            (unaryServerInterceptor.Interceptor 0) [] true () okHandler = none) ∧
    unaryNested [recordUnary "a1", recordUnary "a1"] () okHandler [] true
      = some (["a1", "a1", "terminal"], .ok "ok") ∧
    streamServerInterceptor.Interceptor
        (((ServerInterceptor.lower 0).Merge selfMergeState [.lower 0]).1.stream 0)
        [] () () logHandler = ["s1", "s1"] := by
  have hgen : ∀ (T : Sig) (s : State T) (x : ServerInterceptor) (fs : List (UnaryFn T))
      (fuel : Nat) (ctx : T.Ctx) (req : T.Req) (info : T.UnaryInfo) (h : UnaryHandler T),
      s.unary (x.UnaryServerInterceptor s) = fs.map GrpcUnaryServerInterceptor.fn →
      (∀ f ∈ fs, waitsForNext f) →
      (x.Merge s [x]).1.unary (x.UnaryServerInterceptor s)
          = fs.map GrpcUnaryServerInterceptor.fn
            ++ [unaryServerInterceptor.Interceptor (x.UnaryServerInterceptor s)] ∧
      (x.Merge s [x]).1.invokeUnary fuel
          (unaryServerInterceptor.Interceptor (x.UnaryServerInterceptor s)) ctx req info h
        = none := by
    intro T s x fs fuel ctx req info h hs hfs
    have hu : (x.Merge s [x]).1.unary (x.UnaryServerInterceptor s)
        = fs.map GrpcUnaryServerInterceptor.fn
          ++ [GrpcUnaryServerInterceptor.closure (x.UnaryServerInterceptor s)] := by
      show (lowerServerInterceptor.Merge s (x.receiver s) [x]).1.unary _ = _
      rw [Merge_one_unary]
      show Function.update s.unary (x.UnaryServerInterceptor s) _ (x.UnaryServerInterceptor s) = _
      rw [Function.update_same]
      show s.unary (x.UnaryServerInterceptor s) ++ _ = _
      rw [hs]
    exact ⟨hu, self_closure_never_returns _ _ fs hfs hu info h fuel ctx req⟩
  refine ⟨hgen, ?_, ?_, rfl, rfl⟩
  · intro T s x srv ss info h
    have hv : (x.Merge s [x]).1.stream (x.StreamServerInterceptor s)
        = s.stream (x.StreamServerInterceptor s)
          ++ [streamServerInterceptor.Interceptor (s.stream (x.StreamServerInterceptor s))] := by
      show (lowerServerInterceptor.Merge s (x.receiver s) [x]).1.stream _ = _
      rw [Merge_one_stream]
      show Function.update s.stream (x.StreamServerInterceptor s) _ (x.StreamServerInterceptor s) = _
      rw [Function.update_same]
      rfl
    rw [hv, stream_Interceptor_eq, streamNested_snoc_Interceptor]
  · intro fuel
    exact (hgen LogSig selfMergeState (.lower 0) [recordUnary "a1"] fuel [] true () okHandler rfl
      (fun f hf => by
        rw [List.mem_singleton] at hf
        rw [hf]
        exact waitsForNext_recordUnary "a1")).2

/-- C4: adopting a chain.  The chain `[x]` that adopts the chain `[a, b]`, both
made from listed arguments, composes to `x`, `a`, `b` and the terminal handler.
But `C.AddInterceptor(C)` appends to the unary chain `C` the closure of `C`
itself, which reads `C` when invoked: if the members of `C` wait for their
`next`, the composed interceptor of `C` returns with no amount of fuel and the
terminal handler is never reached, where the flat chain `xs ++ xs` runs every
member twice and then the terminal handler.  A stream chain that adopts itself
composes as the flat slice `xs ++ xs`. -/
theorem adopt_into_itself_never_returns :
    (∀ (T : Sig) (s : State T) (c : Nat) (fs : List (UnaryFn T)) (fuel : Nat)
        (ctx : T.Ctx) (req : T.Req) (info : T.UnaryInfo) (h : UnaryHandler T),
        s.unary c = fs.map GrpcUnaryServerInterceptor.fn →
        (∀ f ∈ fs, waitsForNext f) →
        (unaryServerInterceptor.AddInterceptor s c [c]).1.unary c
            = fs.map GrpcUnaryServerInterceptor.fn ++ [unaryServerInterceptor.Interceptor c] ∧
        (unaryServerInterceptor.AddInterceptor s c [c]).1.invokeUnary fuel
            (unaryServerInterceptor.Interceptor c) ctx req info h = none) ∧
    (∀ fuel : Nat,
        (unaryServerInterceptor.AddInterceptor adoptState 0 [0]).1.invokeUnary fuel
            (unaryServerInterceptor.Interceptor 0) [] true () okHandler = none) ∧
    unaryNested [recordUnary "x", recordUnary "x"] () okHandler [] true
      = some (["x", "x", "terminal"], .ok "ok") ∧
    (unaryServerInterceptor.AddInterceptor adoptState 0 [1]).1.invokeUnary 2
        (unaryServerInterceptor.Interceptor 0) [] true () okHandler
      = some (["x", "a", "b", "terminal"], .ok "ok") ∧
    (∀ (T : Sig) (s : State T) (c : Nat) (srv : T.Srv) (ss : T.Stream) (info : T.StreamInfo)
        (h : StreamHandler T),
        streamServerInterceptor.Interceptor
            ((streamServerInterceptor.AddInterceptor s c [c]).1.stream c) srv ss info h
          = streamNested (s.stream c ++ s.stream c) info h srv ss) := by
  have hgen : ∀ (T : Sig) (s : State T) (c : Nat) (fs : List (UnaryFn T)) (fuel : Nat)
      (ctx : T.Ctx) (req : T.Req) (info : T.UnaryInfo) (h : UnaryHandler T),
      s.unary c = fs.map GrpcUnaryServerInterceptor.fn →
      (∀ f ∈ fs, waitsForNext f) →
      (unaryServerInterceptor.AddInterceptor s c [c]).1.unary c
          = fs.map GrpcUnaryServerInterceptor.fn ++ [unaryServerInterceptor.Interceptor c] ∧
      (unaryServerInterceptor.AddInterceptor s c [c]).1.invokeUnary fuel
          (unaryServerInterceptor.Interceptor c) ctx req info h = none := by
    intro T s c fs fuel ctx req info h hs hfs
    have hu : (unaryServerInterceptor.AddInterceptor s c [c]).1.unary c
        = fs.map GrpcUnaryServerInterceptor.fn ++ [GrpcUnaryServerInterceptor.closure c] := by
      rw [unary_AddInterceptor_one, Function.update_same, hs]
    exact ⟨hu, self_closure_never_returns _ c fs hfs hu info h fuel ctx req⟩
  refine ⟨hgen, ?_, rfl, rfl, ?_⟩
  · intro fuel
    exact (hgen LogSig adoptState 0 [recordUnary "x"] fuel [] true () okHandler rfl
      (fun f hf => by
        rw [List.mem_singleton] at hf
        rw [hf]
        exact waitsForNext_recordUnary "x")).2
  · intro T s c srv ss info h
    rw [stream_AddInterceptor_one, Function.update_same, stream_Interceptor_eq,
      streamNested_snoc_Interceptor]

theorem unaryNested_returnsNext (fs : List (UnaryFn T)) (hfs : ∀ f ∈ fs, returnsNextResult f)
    (info : T.UnaryInfo) :
    ∀ (ctx : T.Ctx) (req : T.Req),
      ∃ (c : T.Ctx) (r : T.Req), ∀ h : UnaryHandler T, unaryNested fs info h ctx req = h c r := by
  induction fs with
  | nil => intro ctx req; exact ⟨ctx, req, fun _ => rfl⟩
  | cons f rest ih =>
    intro ctx req
    obtain ⟨pc, pr, hf⟩ := hfs f (List.mem_cons_self f rest)
    obtain ⟨c, r, hrest⟩ :=
      ih (fun g hg => hfs g (List.mem_cons_of_mem f hg)) (pc ctx req info) (pr ctx req info)
    refine ⟨c, r, fun h => ?_⟩
    show f ctx req info (unaryNested rest info h) = _
    rw [hf, hrest]

theorem streamNested_returnsNext (fs : List (GrpcStreamServerInterceptor T))
    (hfs : ∀ f ∈ fs, streamReturnsNextResult f) (info : T.StreamInfo) :
    ∀ (srv : T.Srv) (ss : T.Stream),
      ∃ (v : T.Srv) (t : T.Stream), ∀ h : StreamHandler T, streamNested fs info h srv ss = h v t := by
  induction fs with
  | nil => intro srv ss; exact ⟨srv, ss, fun _ => rfl⟩
  | cons f rest ih =>
    intro srv ss
    obtain ⟨pv, pt, hf⟩ := hfs f (List.mem_cons_self f rest)
    obtain ⟨v, t, hrest⟩ :=
      ih (fun g hg => hfs g (List.mem_cons_of_mem f hg)) (pv srv ss info) (pt srv ss info)
    refine ⟨v, t, fun h => ?_⟩
    show f srv ss info (streamNested rest info h) = _
    rw [hf, hrest]

theorem returnsNextResult_recordUnary (name : String) : returnsNextResult (recordUnary name) :=
  ⟨fun ctx _ _ => ctx ++ [name], fun _ req _ => req, fun _ _ _ _ => rfl⟩

/-- C13: results and errors propagate unchanged.  The value returned by the
composed interceptor of a non-empty chain is the value returned by its first
entry, called with the composition of the rest as `next` (unary and stream).  If
every entry returns its `next`'s result, the composed interceptor returns the
terminal handler's result, for the context and request that reach it.  If the
entries before position `k` return their `next`'s result and the entry at `k`
does not use `next`, the composed interceptor returns what the entry at `k`
returns; in particular the error `e` when that entry always returns `e`. -/
theorem errors_propagate_unchanged :
    (∀ (T : Sig) (s : State T) (ui fuel : Nat) (e : GrpcUnaryServerInterceptor T)
        (rest : List (GrpcUnaryServerInterceptor T)) (ctx : T.Ctx) (req : T.Req)
        (info : T.UnaryInfo) (h : UnaryHandler T), s.unary ui = e :: rest →
        s.invokeUnary (fuel + 1) (unaryServerInterceptor.Interceptor ui) ctx req info h
          = s.invokeUnary fuel e ctx req info
              (unaryNested (rest.map (s.invokeUnary fuel)) info h)) ∧
    (∀ (T : Sig) (e : GrpcStreamServerInterceptor T) (rest : List (GrpcStreamServerInterceptor T))
        (srv : T.Srv) (ss : T.Stream) (info : T.StreamInfo) (h : StreamHandler T),
        streamServerInterceptor.Interceptor (e :: rest) srv ss info h
          = e srv ss info (streamNested rest info h)) ∧
    (∀ (T : Sig) (s : State T) (ui : Nat) (fs : List (UnaryFn T)) (ctx : T.Ctx) (req : T.Req)
        (info : T.UnaryInfo), s.unary ui = fs.map GrpcUnaryServerInterceptor.fn →
        (∀ f ∈ fs, returnsNextResult f) →
        ∃ (c : T.Ctx) (r : T.Req), ∀ (fuel : Nat) (h : UnaryHandler T),
          s.invokeUnary (fuel + 1) (unaryServerInterceptor.Interceptor ui) ctx req info h = h c r) ∧
    (∀ (T : Sig) (s : State T) (ui : Nat) (pre post : List (UnaryFn T)) (ek : UnaryFn T)
        (ctx : T.Ctx) (req : T.Req) (info : T.UnaryInfo),
        s.unary ui = (pre ++ ek :: post).map GrpcUnaryServerInterceptor.fn →
        (∀ f ∈ pre, returnsNextResult f) →
        (∀ c r n n', ek c r info n = ek c r info n') →
        ∃ (c : T.Ctx) (r : T.Req), ∀ (fuel : Nat) (h n : UnaryHandler T),
          s.invokeUnary (fuel + 1) (unaryServerInterceptor.Interceptor ui) ctx req info h
            = ek c r info n) ∧
    (∀ (T : Sig) (s : State T) (ui fuel : Nat) (pre post : List (UnaryFn T)) (ek : UnaryFn T)
        (err : T.Res) (ctx : T.Ctx) (req : T.Req) (info : T.UnaryInfo) (h : UnaryHandler T),
        s.unary ui = (pre ++ ek :: post).map GrpcUnaryServerInterceptor.fn →
        (∀ f ∈ pre, returnsNextResult f) →
        (∀ c r n, ek c r info n = some err) →
        s.invokeUnary (fuel + 1) (unaryServerInterceptor.Interceptor ui) ctx req info h
          = some err) ∧
    (∀ (T : Sig) (fs : List (GrpcStreamServerInterceptor T)) (srv : T.Srv) (ss : T.Stream)
        (info : T.StreamInfo), (∀ f ∈ fs, streamReturnsNextResult f) →
        ∃ (v : T.Srv) (t : T.Stream), ∀ h : StreamHandler T,
          streamServerInterceptor.Interceptor fs srv ss info h = h v t) ∧
    (∀ (T : Sig) (pre post : List (GrpcStreamServerInterceptor T))
        (ek : GrpcStreamServerInterceptor T) (err : T.Err) (srv : T.Srv) (ss : T.Stream)
        (info : T.StreamInfo) (h : StreamHandler T),
        (∀ f ∈ pre, streamReturnsNextResult f) →
        (∀ v t n, ek v t info n = err) →
        streamServerInterceptor.Interceptor (pre ++ ek :: post) srv ss info h = err) := by
  have hpos : ∀ (T : Sig) (s : State T) (ui : Nat) (pre post : List (UnaryFn T)) (ek : UnaryFn T)
      (ctx : T.Ctx) (req : T.Req) (info : T.UnaryInfo),
      s.unary ui = (pre ++ ek :: post).map GrpcUnaryServerInterceptor.fn →
      (∀ f ∈ pre, returnsNextResult f) →
      (∀ c r n n', ek c r info n = ek c r info n') →
      ∃ (c : T.Ctx) (r : T.Req), ∀ (fuel : Nat) (h n : UnaryHandler T),
        s.invokeUnary (fuel + 1) (unaryServerInterceptor.Interceptor ui) ctx req info h
          = ek c r info n := by
    intro T s ui pre post ek ctx req info hs hpre hek
    obtain ⟨c, r, hcr⟩ := unaryNested_returnsNext pre hpre info ctx req
    refine ⟨c, r, fun fuel h n => ?_⟩
    have := invoke_closure_fns s.unary fuel ui (pre ++ ek :: post) hs ctx req info h
    show GrpcUnaryServerInterceptor.invoke s.unary (fuel + 1) (.closure ui) ctx req info h = _
    rw [this, unaryNested_append, hcr]
    exact hek c r _ n
  refine ⟨?_, ?_, ?_, hpos, ?_, ?_, ?_⟩
  · intro T s ui fuel e rest ctx req info h hs
    show GrpcUnaryServerInterceptor.invoke s.unary (fuel + 1) (.closure ui) ctx req info h = _
    rw [invoke_closure, hs]
    rfl
  · intro T e rest srv ss info h
    rw [stream_Interceptor_eq]
    rfl
  · intro T s ui fs ctx req info hs hfs
    obtain ⟨c, r, hcr⟩ := unaryNested_returnsNext fs hfs info ctx req
    refine ⟨c, r, fun fuel h => ?_⟩
    show GrpcUnaryServerInterceptor.invoke s.unary (fuel + 1) (.closure ui) ctx req info h = _
    rw [invoke_closure_fns s.unary fuel ui fs hs ctx req info h, hcr]
  · intro T s ui fuel pre post ek err ctx req info h hs hpre hek
    obtain ⟨c, r, hcr⟩ := hpos T s ui pre post ek ctx req info hs hpre
      (fun c r n n' => by rw [hek, hek])
    rw [hcr fuel h h, hek]
  · intro T fs srv ss info hfs
    obtain ⟨v, t, hvt⟩ := streamNested_returnsNext fs hfs info srv ss
    exact ⟨v, t, fun h => by rw [stream_Interceptor_eq, hvt]⟩
  · intro T pre post ek err srv ss info h hpre hek
    obtain ⟨v, t, hvt⟩ := streamNested_returnsNext pre hpre info srv ss
    rw [stream_Interceptor_eq, streamNested_append, hvt]
    exact hek v t _

/-- C13, at a concrete chain: in `[logRequest, denyAlways, addTimingHeader]` the
second entry answers without `next`; the composed interceptor returns its
answer, the error `denied`, unchanged. -/
theorem errors_propagate_unchanged_witness :
    ∃ (c : List String) (r : Bool), ∀ (fuel : Nat) (h n : UnaryHandler LogSig),
      shortCircuitState.invokeUnary (fuel + 1) (unaryServerInterceptor.Interceptor 0) [] true () h
        = denyAlways c r () n :=
  errors_propagate_unchanged.2.2.2.1 LogSig shortCircuitState 0 [logRequest] [addTimingHeader]
    denyAlways [] true () rfl
    (fun f hf => by
      rw [List.mem_singleton] at hf
      rw [hf]
      exact returnsNextResult_recordUnary "logRequest")
    (fun _ _ _ _ => rfl)

/-! ## Appending to a chain -/

theorem receiver_of_higher_eq (s s' : State T) (x : ServerInterceptor)
    (hh : s'.higher = s.higher) : x.receiver s' = x.receiver s := by
  cases x with
  | lower l => rfl
  | higher h =>
    show (s'.higher h).ServerInterceptor = (s.higher h).ServerInterceptor
    rw [hh]

theorem returned_level_core (s s' : State T) (x : ServerInterceptor) (hh : s'.higher = s.higher) :
    sameLevel s' x (.lower (x.receiver s)) ∧
    (∀ (h : Nat) (k : String),
      higherServerInterceptorLevel.Get s' h k = higherServerInterceptorLevel.Get s h k) := by
  have hr := receiver_of_higher_eq s s' x hh
  refine ⟨⟨?_, ?_, ?_⟩, ?_⟩
  · show (s'.lower (x.receiver s)).index = (s'.lower (x.receiver s')).index
    rw [hr]
  · show (s'.lower (x.receiver s)).unaries = (s'.lower (x.receiver s')).unaries
    rw [hr]
  · show (s'.lower (x.receiver s)).streams = (s'.lower (x.receiver s')).streams
    rw [hr]
  · intro h k
    unfold higherServerInterceptorLevel.Get
    rw [hh]

/-- C15: the value returned by the configuration methods.  On the level `X` made
by `NewServerInterceptor("lvl")` in the empty heap each of the five methods
returns `X` itself.  On the register `X` made by
`NewServerInterceptorRegister("reg")` in the empty heap each of the five
methods returns the level embedded in `X`, a `*lowerServerInterceptor`: it is
not `X`, and it is not a register, while `X` is one. -/
theorem fluent_return_on_register_is_embedded_level :
    (NewServerInterceptor (State.empty : State LogSig) "lvl").2 = .lower 0 ∧
    ((ServerInterceptor.lower 0).AddGRPCUnaryInterceptor
        (NewServerInterceptor (State.empty : State LogSig) "lvl").1 []).2 = .lower 0 ∧
    ((ServerInterceptor.lower 0).AddUnaryInterceptor
        (NewServerInterceptor (State.empty : State LogSig) "lvl").1 []).2 = .lower 0 ∧
    ((ServerInterceptor.lower 0).AddGRPCStreamInterceptor
        (NewServerInterceptor (State.empty : State LogSig) "lvl").1 []).2 = .lower 0 ∧
    ((ServerInterceptor.lower 0).AddStreamInterceptor
        (NewServerInterceptor (State.empty : State LogSig) "lvl").1 []).2 = .lower 0 ∧
    ((ServerInterceptor.lower 0).Merge
        (NewServerInterceptor (State.empty : State LogSig) "lvl").1 []).2 = .lower 0 ∧
    (NewServerInterceptorRegister (State.empty : State LogSig) "reg").2 = 0 ∧
    ((ServerInterceptor.higher 0).AddGRPCUnaryInterceptor
        (NewServerInterceptorRegister (State.empty : State LogSig) "reg").1 []).2 = .lower 0 ∧
    ((ServerInterceptor.higher 0).AddUnaryInterceptor
        (NewServerInterceptorRegister (State.empty : State LogSig) "reg").1 []).2 = .lower 0 ∧
    ((ServerInterceptor.higher 0).AddGRPCStreamInterceptor
        (NewServerInterceptorRegister (State.empty : State LogSig) "reg").1 []).2 = .lower 0 ∧
    ((ServerInterceptor.higher 0).AddStreamInterceptor
        (NewServerInterceptorRegister (State.empty : State LogSig) "reg").1 []).2 = .lower 0 ∧
    ((ServerInterceptor.higher 0).Merge
        (NewServerInterceptorRegister (State.empty : State LogSig) "reg").1 []).2 = .lower 0 ∧
    ServerInterceptor.lower 0 ≠ ServerInterceptor.higher 0 ∧
    (ServerInterceptor.lower 0).asRegister = none ∧
    (ServerInterceptor.higher 0).asRegister = some 0 :=
  ⟨rfl, rfl, rfl, rfl, rfl, rfl, rfl, rfl, rfl, rfl, rfl, rfl, by decide, rfl, rfl⟩

/-- What the configuration methods return, in every state: each of
`AddGRPCUnaryInterceptor`, `AddUnaryInterceptor`, `AddGRPCStreamInterceptor`,
`AddStreamInterceptor` and `Merge` called on `X`
returns the `*lowerServerInterceptor` that executes the call: `X` itself when `X`
is a level, the level embedded in `X` when `X` is a register.  After the call
the returned value has `X`'s index and `X`'s two chains, and every register,
`X` included, answers `Get` as before; for a register the returned value is not
`X` and is not a register. -/
theorem fluent_return_is_the_level (T : Sig) (s : State T) (x : ServerInterceptor)
    (us : List (GrpcUnaryServerInterceptor T)) (ss : List (GrpcStreamServerInterceptor T))
    (cs : List Nat) (ls : List ServerInterceptor) :
    ((x.AddGRPCUnaryInterceptor s us).2 = .lower (x.receiver s) ∧
      sameLevel (x.AddGRPCUnaryInterceptor s us).1 x (x.AddGRPCUnaryInterceptor s us).2 ∧
      ∀ (h : Nat) (k : String),
        higherServerInterceptorLevel.Get (x.AddGRPCUnaryInterceptor s us).1 h k
          = higherServerInterceptorLevel.Get s h k) ∧
    ((x.AddUnaryInterceptor s cs).2 = .lower (x.receiver s) ∧
      sameLevel (x.AddUnaryInterceptor s cs).1 x (x.AddUnaryInterceptor s cs).2 ∧
      ∀ (h : Nat) (k : String),
        higherServerInterceptorLevel.Get (x.AddUnaryInterceptor s cs).1 h k
          = higherServerInterceptorLevel.Get s h k) ∧
    ((x.AddGRPCStreamInterceptor s ss).2 = .lower (x.receiver s) ∧
      sameLevel (x.AddGRPCStreamInterceptor s ss).1 x (x.AddGRPCStreamInterceptor s ss).2 ∧
      ∀ (h : Nat) (k : String),
        higherServerInterceptorLevel.Get (x.AddGRPCStreamInterceptor s ss).1 h k
          = higherServerInterceptorLevel.Get s h k) ∧
    ((x.AddStreamInterceptor s cs).2 = .lower (x.receiver s) ∧
      sameLevel (x.AddStreamInterceptor s cs).1 x (x.AddStreamInterceptor s cs).2 ∧
      ∀ (h : Nat) (k : String),
        higherServerInterceptorLevel.Get (x.AddStreamInterceptor s cs).1 h k
          = higherServerInterceptorLevel.Get s h k) ∧
    ((x.Merge s ls).2 = .lower (x.receiver s) ∧
      sameLevel (x.Merge s ls).1 x (x.Merge s ls).2 ∧
      ∀ (h : Nat) (k : String),
        higherServerInterceptorLevel.Get (x.Merge s ls).1 h k
          = higherServerInterceptorLevel.Get s h k) ∧
    (∀ l : Nat, x = .lower l → ServerInterceptor.lower (x.receiver s) = x) ∧
    (∀ h : Nat, x = .higher h →
      ServerInterceptor.lower (x.receiver s) ≠ x ∧
      (ServerInterceptor.lower (x.receiver s)).asRegister = none ∧
      x.asRegister = some h) := by
  refine ⟨?_, ?_, ?_, ?_, ?_, ?_, ?_⟩
  · exact ⟨rfl, returned_level_core s _ x rfl⟩
  · exact ⟨rfl, returned_level_core s _ x (unary_AddInterceptor_frame s _ cs).2.2.1⟩
  · exact ⟨rfl, returned_level_core s _ x rfl⟩
  · exact ⟨rfl, returned_level_core s _ x (stream_AddInterceptor_frame s _ cs).2.2.1⟩
  · exact ⟨rfl, returned_level_core s _ x (Merge_frame s _ ls).2.1⟩
  · intro l hx
    rw [hx]
    rfl
  · intro h hx
    rw [hx]
    exact ⟨fun hne => ServerInterceptor.noConfusion hne, rfl, rfl⟩

/-! ## Indexes never change -/

theorem NewServerInterceptor_fields (s : State T) (index : String) :
    (NewServerInterceptor s index).2 = .lower s.nextLower ∧
    (NewServerInterceptor s index).1.lower
      = Function.update s.lower s.nextLower ⟨s.nextUnary, s.nextStream, index⟩ ∧
    (NewServerInterceptor s index).1.higher = s.higher ∧
    (NewServerInterceptor s index).1.nextLower = s.nextLower + 1 ∧
    (NewServerInterceptor s index).1.nextHigher = s.nextHigher :=
  ⟨rfl, rfl, rfl, rfl, rfl⟩

theorem NewServerInterceptorRegister_fields (s : State T) (index : String) :
    (NewServerInterceptorRegister s index).2 = s.nextHigher ∧
    (NewServerInterceptorRegister s index).1.lower
      = Function.update s.lower s.nextLower ⟨s.nextUnary, s.nextStream, index⟩ ∧
    (NewServerInterceptorRegister s index).1.higher
      = Function.update s.higher s.nextHigher ⟨s.nextLower, fun _ => none⟩ ∧
    (NewServerInterceptorRegister s index).1.nextLower = s.nextLower + 1 ∧
    (NewServerInterceptorRegister s index).1.nextHigher = s.nextHigher + 1 :=
  ⟨rfl, rfl, rfl, rfl, rfl⟩

theorem Op.run_nextLower (s : State T) (op : Op T) :
    s.nextLower ≤ (op.run s).nextLower := by
  cases op with
  | streamAdd si arr => exact le_of_eq (stream_AddInterceptor_frame s si arr).2.2.2.2.2.1.symm
  | unaryAdd ui arr => exact le_of_eq (unary_AddInterceptor_frame s ui arr).2.2.2.2.2.1.symm
  | addUnary x arr => exact le_of_eq (unary_AddInterceptor_frame s _ arr).2.2.2.2.2.1.symm
  | addStream x arr => exact le_of_eq (stream_AddInterceptor_frame s _ arr).2.2.2.2.2.1.symm
  | merge x interceptors => exact le_of_eq (Merge_frame s _ interceptors).2.2.2.2.1.symm
  | newLevel index => exact Nat.le_succ _
  | newRegister index => exact Nat.le_succ _
  | _ => exact le_refl _

theorem Op.run_lower (s : State T) (op : Op T) (l : Nat) (hl : l < s.nextLower) :
    (op.run s).lower l = s.lower l := by
  cases op with
  | streamAdd si arr =>
    show (streamServerInterceptor.AddInterceptor s si arr).1.lower l = _
    rw [(stream_AddInterceptor_frame s si arr).2.1]
  | unaryAdd ui arr =>
    show (unaryServerInterceptor.AddInterceptor s ui arr).1.lower l = _
    rw [(unary_AddInterceptor_frame s ui arr).2.1]
  | addUnary x arr =>
    show (unaryServerInterceptor.AddInterceptor s _ arr).1.lower l = _
    rw [(unary_AddInterceptor_frame s _ arr).2.1]
  | addStream x arr =>
    show (streamServerInterceptor.AddInterceptor s _ arr).1.lower l = _
    rw [(stream_AddInterceptor_frame s _ arr).2.1]
  | merge x interceptors =>
    show (lowerServerInterceptor.Merge s _ interceptors).1.lower l = _
    rw [(Merge_frame s _ interceptors).1]
  | newLevel index =>
    show (NewServerInterceptor s index).1.lower l = _
    rw [(NewServerInterceptor_fields s index).2.1, Function.update_noteq (Nat.ne_of_lt hl)]
  | newRegister index =>
    show (NewServerInterceptorRegister s index).1.lower l = _
    rw [(NewServerInterceptorRegister_fields s index).2.1, Function.update_noteq (Nat.ne_of_lt hl)]
  | _ => rfl

theorem Op.run_embedded (s : State T) (op : Op T) (h : Nat) (hh : h < s.nextHigher) :
    ((op.run s).higher h).ServerInterceptor = (s.higher h).ServerInterceptor := by
  by_cases hreg : ∃ level, op = .register h level
  · obtain ⟨level, rfl⟩ := hreg
    show ((higherServerInterceptorLevel.Register s h level).higher h).ServerInterceptor = _
    rw [Register_higher_same]
  · rw [Op.run_higher s op h hh (fun level heq => hreg ⟨level, heq⟩)]

theorem Op.run_allocated_Index (s : State T) (op : Op T) (x : ServerInterceptor)
    (hx : x.allocated s) : x.allocated (op.run s) ∧ x.Index (op.run s) = x.Index s := by
  cases x with
  | lower l =>
    have hl : l < s.nextLower := hx
    refine ⟨lt_of_lt_of_le hl (Op.run_nextLower s op), ?_⟩
    show ((op.run s).lower l).index = (s.lower l).index
    rw [Op.run_lower s op l hl]
  | higher h =>
    obtain ⟨hh, he⟩ : h < s.nextHigher ∧ (s.higher h).ServerInterceptor < s.nextLower := hx
    have hemb := Op.run_embedded s op h hh
    refine ⟨⟨lt_of_lt_of_le hh (Op.run_nextHigher s op), ?_⟩, ?_⟩
    · rw [hemb]
      exact lt_of_lt_of_le he (Op.run_nextLower s op)
    · show ((op.run s).lower ((op.run s).higher h).ServerInterceptor).index
        = (s.lower (s.higher h).ServerInterceptor).index
      rw [hemb, Op.run_lower s op _ he]

theorem runOps_allocated_Index (x : ServerInterceptor) :
    ∀ (ops : List (Op T)) (s : State T), x.allocated s →
      x.allocated (runOps s ops) ∧ x.Index (runOps s ops) = x.Index s := by
  intro ops
  induction ops with
  | nil => intro s hx; exact ⟨hx, rfl⟩
  | cons op rest ih =>
    intro s hx
    obtain ⟨ha, hi⟩ := Op.run_allocated_Index s op x hx
    obtain ⟨ha', hi'⟩ := ih (op.run s) ha
    rw [runOps_cons]
    exact ⟨ha', hi'.trans hi⟩

theorem NewServerInterceptor_Index (s : State T) (index : String) :
    (NewServerInterceptor s index).2.allocated (NewServerInterceptor s index).1 ∧
    (NewServerInterceptor s index).2.Index (NewServerInterceptor s index).1 = index := by
  constructor
  · exact Nat.lt_succ_self s.nextLower
  · show ((NewServerInterceptor s index).1.lower s.nextLower).index = index
    rw [(NewServerInterceptor_fields s index).2.1, Function.update_same]

theorem NewServerInterceptorRegister_Index (s : State T) (index : String) :
    (ServerInterceptor.higher (NewServerInterceptorRegister s index).2).allocated
      (NewServerInterceptorRegister s index).1 ∧
    (ServerInterceptor.higher (NewServerInterceptorRegister s index).2).Index
      (NewServerInterceptorRegister s index).1 = index := by
  have hemb : ((NewServerInterceptorRegister s index).1.higher s.nextHigher).ServerInterceptor
      = s.nextLower := by
    rw [(NewServerInterceptorRegister_fields s index).2.2.1, Function.update_same]
  refine ⟨⟨Nat.lt_succ_self s.nextHigher, ?_⟩, ?_⟩
  · show ((NewServerInterceptorRegister s index).1.higher s.nextHigher).ServerInterceptor
      < s.nextLower + 1
    rw [hemb]
    exact Nat.lt_succ_self _
  · show ((NewServerInterceptorRegister s index).1.lower
      ((NewServerInterceptorRegister s index).1.higher s.nextHigher).ServerInterceptor).index = index
    rw [hemb, (NewServerInterceptorRegister_fields s index).2.1, Function.update_same]

/-- C16: own chains and children are independent.  (1) `Register(L)` changes no
index, no chain address and no chain contents.  (2) The five configuration
methods, called on any level or register, leave `Get(k)` of every register
unchanged.  (3) The methods on the unary chain leave every stream chain
unchanged, and the methods on the stream chain leave every unary chain
unchanged.  (4) `Index()` of a new level or register is the string given to the
constructor, and it is still that string after any sequence of calls; more
generally no call changes the index of a level or register that exists. -/
theorem chains_and_children_are_independent :
    (∀ (T : Sig) (s : State T) (r : Nat) (level x : ServerInterceptor),
        x.Index (higherServerInterceptorLevel.Register s r level) = x.Index s ∧
        x.UnaryServerInterceptor (higherServerInterceptorLevel.Register s r level)
          = x.UnaryServerInterceptor s ∧
        x.StreamServerInterceptor (higherServerInterceptorLevel.Register s r level)
          = x.StreamServerInterceptor s ∧
        (higherServerInterceptorLevel.Register s r level).unary = s.unary ∧
        (higherServerInterceptorLevel.Register s r level).stream = s.stream) ∧
    (∀ (T : Sig) (s : State T) (x : ServerInterceptor) (r : Nat) (k : String)
        (us : List (GrpcUnaryServerInterceptor T)) (ss : List (GrpcStreamServerInterceptor T))
        (cs : List Nat) (ls : List ServerInterceptor),
        higherServerInterceptorLevel.Get (x.AddGRPCUnaryInterceptor s us).1 r k
          = higherServerInterceptorLevel.Get s r k ∧
        higherServerInterceptorLevel.Get (x.AddUnaryInterceptor s cs).1 r k
          = higherServerInterceptorLevel.Get s r k ∧
        higherServerInterceptorLevel.Get (x.AddGRPCStreamInterceptor s ss).1 r k
          = higherServerInterceptorLevel.Get s r k ∧
        higherServerInterceptorLevel.Get (x.AddStreamInterceptor s cs).1 r k
          = higherServerInterceptorLevel.Get s r k ∧
        higherServerInterceptorLevel.Get (x.Merge s ls).1 r k
          = higherServerInterceptorLevel.Get s r k) ∧
    (∀ (T : Sig) (s : State T) (x : ServerInterceptor)
        (us : List (GrpcUnaryServerInterceptor T)) (ss : List (GrpcStreamServerInterceptor T))
        (cs : List Nat),
        (x.AddGRPCUnaryInterceptor s us).1.stream = s.stream ∧
        (x.AddUnaryInterceptor s cs).1.stream = s.stream ∧
        (x.AddGRPCStreamInterceptor s ss).1.unary = s.unary ∧
        (x.AddStreamInterceptor s cs).1.unary = s.unary) ∧
    (∀ (T : Sig) (s : State T) (ui si : Nat)
        (us : List (GrpcUnaryServerInterceptor T)) (ss : List (GrpcStreamServerInterceptor T))
        (cs : List Nat),
        (unaryServerInterceptor.AddGRPCInterceptor s ui us).1.stream = s.stream ∧
        (unaryServerInterceptor.AddInterceptor s ui cs).1.stream = s.stream ∧
        (streamServerInterceptor.AddGRPCInterceptor s si ss).1.unary = s.unary ∧
        (streamServerInterceptor.AddInterceptor s si cs).1.unary = s.unary) ∧
    (∀ (T : Sig) (s : State T) (index : String) (ops : List (Op T)),
        (NewServerInterceptor s index).2.Index (NewServerInterceptor s index).1 = index ∧
        (NewServerInterceptor s index).2.Index (runOps (NewServerInterceptor s index).1 ops)
          = index ∧
        (ServerInterceptor.higher (NewServerInterceptorRegister s index).2).Index
          (NewServerInterceptorRegister s index).1 = index ∧
        (ServerInterceptor.higher (NewServerInterceptorRegister s index).2).Index
          (runOps (NewServerInterceptorRegister s index).1 ops) = index) ∧
    (∀ (T : Sig) (s : State T) (x : ServerInterceptor) (ops : List (Op T)),
        x.allocated s → x.Index (runOps s ops) = x.Index s) := by
  refine ⟨?_, ?_, ?_, ?_, ?_, ?_⟩
  · intro T s r level x
    exact ⟨Register_Index s r level x, Register_UnaryServerInterceptor s r level x,
      Register_StreamServerInterceptor s r level x, rfl, rfl⟩
  · intro T s x r k us ss cs ls
    exact ⟨(returned_level_core s _ x rfl).2 r k,
      (returned_level_core s _ x (unary_AddInterceptor_frame s _ cs).2.2.1).2 r k,
      (returned_level_core s _ x rfl).2 r k,
      (returned_level_core s _ x (stream_AddInterceptor_frame s _ cs).2.2.1).2 r k,
      (returned_level_core s _ x (Merge_frame s _ ls).2.1).2 r k⟩
  · intro T s x us ss cs
    exact ⟨rfl, (unary_AddInterceptor_frame s _ cs).1, rfl, (stream_AddInterceptor_frame s _ cs).1⟩
  · intro T s ui si us ss cs
    exact ⟨rfl, (unary_AddInterceptor_frame s ui cs).1, rfl, (stream_AddInterceptor_frame s si cs).1⟩
  · intro T s index ops
    have hl := NewServerInterceptor_Index s index
    have hr := NewServerInterceptorRegister_Index s index
    exact ⟨hl.2, ((runOps_allocated_Index _ ops _ hl.1).2).trans hl.2, hr.2,
      ((runOps_allocated_Index _ ops _ hr.1).2).trans hr.2⟩
  · intro T s x ops hx
    exact (runOps_allocated_Index x ops s hx).2

/-- C16, at a concrete trace: the level `A` of `mergeState` keeps its index while
it is registered in a new register, merged into and appended to. -/
theorem chains_and_children_are_independent_witness :
    (ServerInterceptor.lower 0).Index
        (runOps mergeState
          [.newRegister "reg", .register 0 (.lower 0), .merge (.lower 0) [.lower 1],
            .addGRPCUnary (.lower 0) [.fn logRequest]]) = "A" :=
  chains_and_children_are_independent.2.2.2.2.2 LogSig mergeState (.lower 0)
    [.newRegister "reg", .register 0 (.lower 0), .merge (.lower 0) [.lower 1],
      .addGRPCUnary (.lower 0) [.fn logRequest]]
    (show (0 : Nat) < 3 by decide)

/-! ## The generated `Register<Service>` -/

theorem Merge_Index (s : State T) (a x : ServerInterceptor) (ls : List ServerInterceptor) :
    x.Index (a.Merge s ls).1 = x.Index s ∧
    x.UnaryServerInterceptor (a.Merge s ls).1 = x.UnaryServerInterceptor s ∧
    x.StreamServerInterceptor (a.Merge s ls).1 = x.StreamServerInterceptor s := by
  have hfr := Merge_frame s (a.receiver s) ls
  have hrecv : x.receiver (a.Merge s ls).1 = x.receiver s :=
    receiver_of_higher_eq s _ x hfr.2.1
  have hlow : (a.Merge s ls).1.lower = s.lower := hfr.1
  refine ⟨?_, ?_, ?_⟩
  · show ((a.Merge s ls).1.lower (x.receiver (a.Merge s ls).1)).index = _
    rw [hrecv, hlow]; rfl
  · show ((a.Merge s ls).1.lower (x.receiver (a.Merge s ls).1)).unaries = _
    rw [hrecv, hlow]; rfl
  · show ((a.Merge s ls).1.lower (x.receiver (a.Merge s ls).1)).streams = _
    rw [hrecv, hlow]; rfl

theorem Merge_Get (s : State T) (a : ServerInterceptor) (ls : List ServerInterceptor) (r : Nat)
    (k : String) :
    higherServerInterceptorLevel.Get (a.Merge s ls).1 r k = higherServerInterceptorLevel.Get s r k :=
  (returned_level_core s _ a (Merge_frame s _ ls).2.1).2 r k

theorem createService_address (G : String → ServerInterceptor) (s : State T) (pkg : Nat)
    (tpl : ServiceTemplate) : (createService G s pkg tpl).2 = s.nextHigher := by
  unfold createService
  cases tpl.Interceptors <;> rfl

theorem createService_Get (G : String → ServerInterceptor) (s : State T) (pkg : Nat)
    (tpl : ServiceTemplate) :
    higherServerInterceptorLevel.Get (createService G s pkg tpl).1 pkg tpl.Service
      = (some (.higher s.nextHigher), true) ∧
    (ServerInterceptor.higher s.nextHigher).Index (createService G s pkg tpl).1 = tpl.Service := by
  have hidx := (NewServerInterceptorRegister_Index s tpl.Service).2
  have hget := Get_Register_same (NewServerInterceptorRegister s tpl.Service).1 pkg
    (.higher (NewServerInterceptorRegister s tpl.Service).2)
  rw [hidx] at hget
  have hidx2 : (ServerInterceptor.higher s.nextHigher).Index
      (higherServerInterceptorLevel.Register (NewServerInterceptorRegister s tpl.Service).1 pkg
        (.higher (NewServerInterceptorRegister s tpl.Service).2)) = tpl.Service := by
    rw [Register_Index]
    exact hidx
  unfold createService
  cases tpl.Interceptors with
  | none => exact ⟨hget, hidx2⟩
  | some indexes =>
    constructor
    · show higherServerInterceptorLevel.Get (ServerInterceptor.Merge _ _ _).1 pkg tpl.Service = _
      rw [Merge_Get]
      exact hget
    · show (ServerInterceptor.higher s.nextHigher).Index (ServerInterceptor.Merge _ _ _).1 = _
      rw [(Merge_Index _ _ _ _).1]
      exact hidx2

theorem createService_unary (G : String → ServerInterceptor) (s : State T) (pkg : Nat)
    (tpl : ServiceTemplate) :
    (ServerInterceptor.higher s.nextHigher).UnaryServerInterceptor (createService G s pkg tpl).1
      = s.nextUnary ∧
    (createService G s pkg tpl).1.unary s.nextUnary
      = (tpl.Interceptors.getD []).map (fun i =>
          unaryServerInterceptor.Interceptor
            ((G i).UnaryServerInterceptor (createService G s pkg tpl).1)) := by
  have hu0 : (ServerInterceptor.higher s.nextHigher).UnaryServerInterceptor
      (higherServerInterceptorLevel.Register (NewServerInterceptorRegister s tpl.Service).1 pkg
        (.higher (NewServerInterceptorRegister s tpl.Service).2)) = s.nextUnary := by
    rw [Register_UnaryServerInterceptor]
    show ((NewServerInterceptorRegister s tpl.Service).1.lower
      ((NewServerInterceptorRegister s tpl.Service).1.higher s.nextHigher).ServerInterceptor).unaries
      = s.nextUnary
    rw [(NewServerInterceptorRegister_fields s tpl.Service).2.2.1, Function.update_same,
      (NewServerInterceptorRegister_fields s tpl.Service).2.1, Function.update_same]
  have hc0 : (higherServerInterceptorLevel.Register (NewServerInterceptorRegister s tpl.Service).1
      pkg (.higher (NewServerInterceptorRegister s tpl.Service).2)).unary s.nextUnary = [] := by
    show Function.update s.unary s.nextUnary [] s.nextUnary = []
    rw [Function.update_same]
  unfold createService
  cases tpl.Interceptors with
  | none => exact ⟨hu0, hc0⟩
  | some indexes =>
    constructor
    · show (ServerInterceptor.higher s.nextHigher).UnaryServerInterceptor
        (ServerInterceptor.Merge _ _ _).1 = _
      rw [(Merge_Index _ _ _ _).2.1]
      exact hu0
    · show (lowerServerInterceptor.Merge _ _ _).1.unary s.nextUnary = _
      rw [Merge_unary]
      have hrecvu : ((higherServerInterceptorLevel.Register
          (NewServerInterceptorRegister s tpl.Service).1 pkg
          (.higher (NewServerInterceptorRegister s tpl.Service).2)).lower
          ((ServerInterceptor.higher (NewServerInterceptorRegister s tpl.Service).2).receiver
            (higherServerInterceptorLevel.Register (NewServerInterceptorRegister s tpl.Service).1
              pkg (.higher (NewServerInterceptorRegister s tpl.Service).2)))).unaries
          = s.nextUnary := hu0
      rw [hrecvu, Function.update_same, hc0, List.nil_append, List.map_map]
      apply List.map_congr_left
      intro i _
      show GrpcUnaryServerInterceptor.closure _ = GrpcUnaryServerInterceptor.closure _
      congr 1
      exact ((Merge_Index _ (ServerInterceptor.higher
        (NewServerInterceptorRegister s tpl.Service).2) (G i) (indexes.map G)).2.1).symm

theorem wireMethods_Get (G : String → ServerInterceptor)
    (method : State T → Nat → MethodTemplate → State T × Nat) (ret pkg : Nat) (k : String)
    (hkeep : ∀ st m, higherServerInterceptorLevel.Get (method st ret m).1 pkg k
      = higherServerInterceptorLevel.Get st pkg k)
    (s : State T) (methods : List MethodTemplate) :
    higherServerInterceptorLevel.Get (wireMethods G method s ret methods) pkg k
      = higherServerInterceptorLevel.Get s pkg k := by
  unfold wireMethods
  refine foldl_invariant
    (fun st : State T => higherServerInterceptorLevel.Get st pkg k
      = higherServerInterceptorLevel.Get s pkg k) _ ?_ methods s rfl
  intro st m hst
  cases hm : m.Interceptors with
  | none => exact hst
  | some indexes =>
    simp only []
    by_cases hs : m.Stream = true
    · rw [if_pos hs]
      have hfr := (stream_AddInterceptor_frame (method st ret m).1 (method st ret m).2
        (indexes.map (fun i => (G i).StreamServerInterceptor (method st ret m).1))).2.2.1
      unfold higherServerInterceptorLevel.Get at hst hkeep ⊢
      rw [hfr]
      exact (hkeep st m).trans hst
    · rw [if_neg hs]
      have hfr := (unary_AddInterceptor_frame (method st ret m).1 (method st ret m).2
        (indexes.map (fun i => (G i).UnaryServerInterceptor (method st ret m).1))).2.2.1
      unfold higherServerInterceptorLevel.Get at hst hkeep ⊢
      rw [hfr]
      exact (hkeep st m).trans hst

theorem RegisterService_hit (G : String → ServerInterceptor)
    (method : State T → Nat → MethodTemplate → State T × Nat) (tpl : ServiceTemplate)
    (s : State T) (pkg : Nat) (level : ServerInterceptor)
    (hget : higherServerInterceptorLevel.Get s pkg tpl.Service = (some level, true)) :
    RegisterService G method tpl s (.higher pkg) = some (s, some level) := by
  unfold RegisterService
  simp [ServerInterceptor.asRegister, hget]

theorem RegisterService_miss (G : String → ServerInterceptor)
    (method : State T → Nat → MethodTemplate → State T × Nat) (tpl : ServiceTemplate)
    (s : State T) (pkg : Nat)
    (hget : (higherServerInterceptorLevel.Get s pkg tpl.Service).2 = false) :
    RegisterService G method tpl s (.higher pkg)
      = some (wireMethods G method (createService G s pkg tpl).1 s.nextHigher tpl.Methods,
          some (.higher s.nextHigher)) := by
  unfold RegisterService
  simp [ServerInterceptor.asRegister, hget, createService_address]

theorem lookupOrCreateMethod_Get (s : State T) (ret pkg : Nat) (m : MethodTemplate) (k : String)
    (hne : pkg ≠ ret) :
    higherServerInterceptorLevel.Get (lookupOrCreateMethod s ret m).1 pkg k
      = higherServerInterceptorLevel.Get s pkg k := by
  unfold lookupOrCreateMethod
  rcases hg : higherServerInterceptorLevel.Get s ret m.Method with ⟨_ | level, _ | _⟩
  · exact Get_Register_other_register _ ret pkg _ k hne
  · exact Get_Register_other_register _ ret pkg _ k hne
  · exact Get_Register_other_register _ ret pkg _ k hne
  · rfl

/-- C18: lookup-or-create is idempotent.  On a package register `pkg` that has no
binding for the service, the first `Register<Service>()` makes a new register
with index `Service`, binds it in `pkg` under `Service`, and merges the scope
interceptors into its empty unary chain once (one entry per configured index);
provided the method accessors do not change what `pkg` answers for `Service`,
the state it leaves binds `Service` to that register, every later call returns
that same register and leaves the state as it is, so after any number of calls
the state, and with it every chain, is the state after the first call. -/
theorem register_service_is_idempotent (T : Sig) (G : String → ServerInterceptor)
    (method : State T → Nat → MethodTemplate → State T × Nat) (tpl : ServiceTemplate)
    (s : State T) (pkg : Nat)
    (hmiss : (higherServerInterceptorLevel.Get s pkg tpl.Service).2 = false)
    (hkeep : ∀ st m, higherServerInterceptorLevel.Get (method st s.nextHigher m).1 pkg tpl.Service
      = higherServerInterceptorLevel.Get st pkg tpl.Service) :
    ∃ s1 : State T,
      RegisterService G method tpl s (.higher pkg) = some (s1, some (.higher s.nextHigher)) ∧
      s1 = wireMethods G method (createService G s pkg tpl).1 s.nextHigher tpl.Methods ∧
      (ServerInterceptor.higher s.nextHigher).Index (createService G s pkg tpl).1 = tpl.Service ∧
      higherServerInterceptorLevel.Get (createService G s pkg tpl).1 pkg tpl.Service
        = (some (.higher s.nextHigher), true) ∧
      (createService G s pkg tpl).1.unary
          ((ServerInterceptor.higher s.nextHigher).UnaryServerInterceptor
            (createService G s pkg tpl).1)
        = (tpl.Interceptors.getD []).map (fun i =>
            unaryServerInterceptor.Interceptor
              ((G i).UnaryServerInterceptor (createService G s pkg tpl).1)) ∧
      higherServerInterceptorLevel.Get s1 pkg tpl.Service = (some (.higher s.nextHigher), true) ∧
      RegisterService G method tpl s1 (.higher pkg) = some (s1, some (.higher s.nextHigher)) ∧
      (∀ n : Nat, RegisterServiceCalls G method tpl (.higher pkg) (n + 1) s
        = some (s1, some (.higher s.nextHigher))) := by
  have hfirst := RegisterService_miss G method tpl s pkg hmiss
  have hcreate := createService_Get G s pkg tpl
  have hget1 : higherServerInterceptorLevel.Get
      (wireMethods G method (createService G s pkg tpl).1 s.nextHigher tpl.Methods) pkg tpl.Service
      = (some (.higher s.nextHigher), true) := by
    rw [wireMethods_Get G method s.nextHigher pkg tpl.Service hkeep]
    exact hcreate.1
  have hagain := RegisterService_hit G method tpl _ pkg _ hget1
  refine ⟨_, hfirst, rfl, hcreate.2, hcreate.1, ?_, hget1, hagain, ?_⟩
  · rw [(createService_unary G s pkg tpl).1]
    exact (createService_unary G s pkg tpl).2
  · intro n
    induction n with
    | zero =>
      show RegisterService G method tpl s (.higher pkg) = _
      exact hfirst
    | succ n ih =>
      show (match RegisterServiceCalls G method tpl (.higher pkg) (n + 1) s with
        | some (s', _) => RegisterService G method tpl s' (.higher pkg)
        | none => none) = _
      rw [ih]
      exact hagain

/-- C18, at a concrete package: in `packageState` the service `Svc` (scope
interceptor `auth`, method `Ping` with interceptor `auth`) is registered three
times in a row; the result is the register made by the first call, at address
`1`, and `pkg` binds `Svc` to it. -/
theorem register_service_is_idempotent_witness :
    ∃ s1 : State LogSig,
      RegisterServiceCalls (fun _ => .lower 1) lookupOrCreateMethod svcTemplate (.higher 0) 3
          packageState = some (s1, some (.higher 1)) ∧
      RegisterServiceCalls (fun _ => .lower 1) lookupOrCreateMethod svcTemplate (.higher 0) 1
          packageState = some (s1, some (.higher 1)) ∧
      higherServerInterceptorLevel.Get s1 0 "Svc" = (some (.higher 1), true) :=
  match register_service_is_idempotent LogSig (fun _ => .lower 1) lookupOrCreateMethod svcTemplate
      packageState 0 rfl
      (fun st m => lookupOrCreateMethod_Get st 1 0 m "Svc" (by decide)) with
  | ⟨s1, _, _, _, _, _, hget, _, hall⟩ => ⟨s1, hall 2, hall 0, hget⟩

/-! ## `Parse` -/

theorem Parse_loop_error {Desc File Err : Type} (GetFile : Desc → Option File × Option Err)
    (GetPackage : Desc → String) (f : Desc) (post : List Desc) (e : Err)
    (hf : (GetFile f).2 = some e) :
    ∀ (pre : List Desc) (pkgs : String → Option (List File)),
      (∀ g ∈ pre, (GetFile g).2 = none) →
      Parse.loop GetFile GetPackage pkgs (pre ++ f :: post) = (none, some e) := by
  intro pre
  induction pre with
  | nil =>
    intro pkgs _
    rcases hg : GetFile f with ⟨parsed, err⟩
    rw [hg] at hf
    simp only at hf
    subst hf
    simp only [List.nil_append, Parse.loop, hg]
  | cons g pre ih =>
    intro pkgs hpre
    have hgood := hpre g (List.mem_cons_self g pre)
    have hrest : ∀ x ∈ pre, (GetFile x).2 = none :=
      fun x hx => hpre x (List.mem_cons_of_mem g hx)
    rcases hg : GetFile g with ⟨parsed, err⟩
    rw [hg] at hgood
    simp only at hgood
    subst hgood
    cases parsed with
    | none =>
      simp only [List.cons_append, Parse.loop, hg]
      exact ih pkgs hrest
    | some x =>
      simp only [List.cons_append, Parse.loop, hg]
      exact ih _ hrest

theorem mapOfLists_getD {File : Type} (c : String → List File) (q : String) :
    (mapOfLists c q).getD [] = c q := by
  unfold mapOfLists
  cases c q <;> rfl

theorem mapOfLists_update {File : Type} (c : String → List File) (q : String) (x : File) :
    Function.update (mapOfLists c) q (some ((mapOfLists c q).getD [] ++ [x]))
      = mapOfLists (fun p => if p = q then c p ++ [x] else c p) := by
  funext p
  by_cases hp : p = q
  · subst hp
    rw [Function.update_same, mapOfLists_getD]
    unfold mapOfLists
    simp only [if_true]
    cases hc : c p ++ [x] with
    | nil => simp at hc
    | cons y rest => rfl
  · rw [Function.update_noteq hp]
    unfold mapOfLists
    simp only [if_neg hp]

theorem packageFiles_cons {Desc File Err : Type} (GetFile : Desc → Option File × Option Err)
    (GetPackage : Desc → String) (g : Desc) (rest : List Desc) (p : String) :
    packageFiles GetFile GetPackage (g :: rest) p
      = (if GetPackage g = p then (GetFile g).1.toList else [])
        ++ packageFiles GetFile GetPackage rest p := by
  unfold packageFiles
  by_cases hp : GetPackage g = p
  · rw [List.filter_cons_of_pos (by simpa using hp), if_pos hp]
    cases hg : (GetFile g).1 with
    | none => simp [List.filterMap_cons, hg]
    | some x => simp [List.filterMap_cons, hg]
  · rw [List.filter_cons_of_neg (by simpa using hp), if_neg hp]
    rfl

theorem Parse_loop_ok {Desc File Err : Type} (GetFile : Desc → Option File × Option Err)
    (GetPackage : Desc → String) :
    ∀ (files : List Desc) (c : String → List File),
      (∀ g ∈ files, (GetFile g).2 = none) →
      Parse.loop GetFile GetPackage (mapOfLists c) files
        = (some (mapOfLists (fun p => c p ++ packageFiles GetFile GetPackage files p)), none) := by
  intro files
  induction files with
  | nil =>
    intro c _
    simp [Parse.loop, packageFiles]
  | cons g rest ih =>
    intro c hall
    have hgood := hall g (List.mem_cons_self g rest)
    have hrest : ∀ x ∈ rest, (GetFile x).2 = none :=
      fun x hx => hall x (List.mem_cons_of_mem g hx)
    rcases hg : GetFile g with ⟨parsed, err⟩
    rw [hg] at hgood
    simp only at hgood
    subst hgood
    have hcontent : ∀ (c' : String → List File),
        (∀ p, c' p = c p ++ (if GetPackage g = p then parsed.toList else [])) →
        (fun p => c' p ++ packageFiles GetFile GetPackage rest p)
          = fun p => c p ++ packageFiles GetFile GetPackage (g :: rest) p := by
      intro c' hc'
      funext p
      rw [packageFiles_cons, hc' p, hg, List.append_assoc]
    cases parsed with
    | none =>
      simp only [Parse.loop, hg]
      rw [ih c hrest, hcontent c (fun p => by simp)]
    | some x =>
      simp only [Parse.loop, hg]
      rw [mapOfLists_update, ih _ hrest,
        hcontent _ (fun p => by
          by_cases hp : p = GetPackage g
          · simp [hp]
          · have hp' : ¬ GetPackage g = p := fun h => hp h.symm
            simp [hp, hp'])]

/-- C19: `Parse` groups the files by package or fails as a whole.  If `GetFile`
returns an error on a file and none on the files before it, `Parse` returns a
nil map with that error, whatever files follow and whatever `GetFile` would
return on them.  If `GetFile` returns no error on any file, `Parse` returns no
error and the map that binds each package with at least one non-nil result to
these results in request order, and has no key for any other package. -/
theorem parse_groups_or_fails {Desc File Err : Type} (GetFile : Desc → Option File × Option Err)
    (GetPackage : Desc → String) :
    (∀ (pre post : List Desc) (f : Desc) (e : Err),
        (∀ g ∈ pre, (GetFile g).2 = none) → (GetFile f).2 = some e →
        Parse GetFile GetPackage (pre ++ f :: post) = (none, some e)) ∧
    (∀ (GetFile' : Desc → Option File × Option Err) (pre post post' : List Desc) (f : Desc)
        (e : Err),
        (∀ g ∈ pre, (GetFile g).2 = none) → (GetFile f).2 = some e →
        (∀ g ∈ pre, GetFile' g = GetFile g) → GetFile' f = GetFile f →
        Parse GetFile' GetPackage (pre ++ f :: post')
          = Parse GetFile GetPackage (pre ++ f :: post)) ∧
    (∀ files : List Desc, (∀ g ∈ files, (GetFile g).2 = none) →
        Parse GetFile GetPackage files
          = (some (groupByPackage GetFile GetPackage files), none)) ∧
    (∀ (files : List Desc) (pkg : String),
        (groupByPackage GetFile GetPackage files pkg = none ↔
          packageFiles GetFile GetPackage files pkg = []) ∧
        (∀ l, groupByPackage GetFile GetPackage files pkg = some l →
          l = packageFiles GetFile GetPackage files pkg)) := by
  have herr : ∀ (G : Desc → Option File × Option Err) (pre post : List Desc) (f : Desc) (e : Err),
      (∀ g ∈ pre, (G g).2 = none) → (G f).2 = some e →
      Parse G GetPackage (pre ++ f :: post) = (none, some e) :=
    fun G pre post f e hpre hf => Parse_loop_error G GetPackage f post e hf pre _ hpre
  refine ⟨herr GetFile, ?_, ?_, ?_⟩
  · intro GetFile' pre post post' f e hpre hf hpre' hf'
    rw [herr GetFile pre post f e hpre hf,
      herr GetFile' pre post' f e (fun g hg => by rw [hpre' g hg]; exact hpre g hg)
        (by rw [hf']; exact hf)]
  · intro files hall
    have h := Parse_loop_ok GetFile GetPackage files (fun _ => []) hall
    have h0 : mapOfLists (fun _ : String => ([] : List File)) = fun _ => none := rfl
    rw [h0] at h
    simp only [List.nil_append] at h
    exact h
  · intro files pkg
    unfold groupByPackage mapOfLists
    cases packageFiles GetFile GetPackage files pkg with
    | nil => simp
    | cons x rest => simp

/-- C19, at concrete requests: with the second of three files failing, `Parse`
returns nil and its error; with the second file yielding nil, `Parse` returns
the map that binds package `p` to the first and third results and has no key
for package `q`. -/
theorem parse_groups_or_fails_witness :
    Parse exampleGetFile Prod.fst [("p", "a"), ("q", "bad"), ("p", "c")]
      = (none, some "cannot parse bad") ∧
    Parse exampleGetFile Prod.fst [("p", "a"), ("q", "skip"), ("p", "c")]
      = (some (groupByPackage exampleGetFile Prod.fst [("p", "a"), ("q", "skip"), ("p", "c")]),
          none) ∧
    groupByPackage exampleGetFile Prod.fst [("p", "a"), ("q", "skip"), ("p", "c")] "p"
      = some ["a", "c"] ∧
    groupByPackage exampleGetFile Prod.fst [("p", "a"), ("q", "skip"), ("p", "c")] "q" = none :=
  ⟨(parse_groups_or_fails exampleGetFile Prod.fst).1 [("p", "a")] [("p", "c")] ("q", "bad")
      "cannot parse bad" (by decide) (by decide),
   (parse_groups_or_fails exampleGetFile Prod.fst).2.2.1 [("p", "a"), ("q", "skip"), ("p", "c")]
      (by decide),
   by decide, by decide⟩

end Grpcmw
